import Mathlib

/-!
# Verification of the kubestats YAML-scanner core

A shallow embedding, in Lean 4, of the resource scanning and
change-detection engine of the `kubestats` backend
(`kubestats/core/yaml_scanner/...`), together with proofs and refutations
of the specification claims about it.

Conventions used throughout:

* Python dictionaries are modelled as association lists in insertion
  order (`List (String × Value)`); `dict[k] = v` keeps the original
  position of an existing key and overwrites its value, exactly like
  CPython.
* Python `None` for optional strings is `Option.none`; Python truthiness
  of strings ("" is falsy) is modelled explicitly at each use site.
* Machine-independent integers are `Nat`/`Int`; the 32-bit arithmetic of
  SHA-256 takes `% 2 ^ 32` explicitly.
* Wall-clock timestamps are opaque `Nat` values passed in by the caller.
-/

set_option autoImplicit false
set_option maxRecDepth 100000

namespace Kubestats

/-- An untyped YAML/JSON-ish value, the shape of the parsed documents the
scanner operates on (`dict[str, Any]` in the Python sources).  Nested
dictionaries keep insertion order, as CPython dicts do. -/
inductive Value where
  | str (s : String)
  | int (n : Int)
  | bool (b : Bool)
  | null
  | dict (entries : List (String × Value))
  | list (elems : List Value)

/-- First-match lookup in an insertion-ordered dictionary
(`d.get(k)` / `d[k]` in Python; keys are unique in real CPython dicts). -/
def lookupEntry (k : String) : List (String × Value) → Option Value
  | [] => none
  | (k', v) :: rest => if k' == k then some v else lookupEntry k rest

/-- Key membership test (`k in d` in Python). -/
def hasKey (k : String) (d : List (String × Value)) : Bool :=
  d.any (fun e => e.fst == k)

mutual

/-- Python `==` on parsed YAML values: dictionaries compare by key set and
per-key value equality (order-insensitive), lists element-wise, scalars by
equality of the same type.  (The cross-type corners of Python equality,
such as `True == 1`, are not exercised by the scanner and not modelled.) -/
def Value.pyEq : Value → Value → Bool
  | .str a, .str b => a == b
  | .int a, .int b => a == b
  | .bool a, .bool b => a == b
  | .null, .null => true
  | .dict a, .dict b => a.length == b.length && Value.pyEqEntries a b
  | .list a, .list b => Value.pyEqList a b
  | _, _ => false

/-- Helper for `Value.pyEq`: every key of `a` is found in `b` with a
`pyEq`-equal value. -/
def Value.pyEqEntries : List (String × Value) → List (String × Value) → Bool
  | [], _ => true
  | (k, v) :: rest, b =>
      (match lookupEntry k b with
       | some w => Value.pyEq v w
       | none => false)
      && Value.pyEqEntries rest b

/-- Helper for `Value.pyEq`: element-wise list comparison. -/
def Value.pyEqList : List Value → List Value → Bool
  | [], [] => true
  | a :: as, b :: bs => Value.pyEq a b && Value.pyEqList as bs
  | _, _ => false

end

/-- The `str.format` of an optional Python string: `None` prints as
`"None"` inside an f-string. -/
def pyFormatOpt : Option String → String
  | some s => s
  | none => "None"

/-- `s.startswith(pre)` (defined over the character lists so that
concrete instances evaluate by kernel reduction). -/
def strStartsWith (s pre : String) : Bool :=
  pre.data.isPrefixOf s.data

/-- Split a character list at every occurrence of `sep`. -/
def splitChar (sep : Char) : List Char → List (List Char)
  | [] => [[]]
  | c :: rest =>
      if c = sep then [] :: splitChar sep rest
      else
        match splitChar sep rest with
        | g :: gs => (c :: g) :: gs
        | [] => [[c]]

/-- A single-quote character (written by code point to keep the source
free of quote literals). -/
def sq : String := String.singleton (Char.ofNat 39)

/-- An opening brace as text. -/
def lbrace : String := String.singleton (Char.ofNat 123)

/-- A closing brace as text. -/
def rbrace : String := String.singleton (Char.ofNat 125)

/-- Comma-space join, as Python uses between dict/list items. -/
def joinComma (parts : List String) : String :=
  String.intercalate ", " parts

mutual

/-- Python `str()`/`repr()` of a parsed YAML value, as used by
`ResourceScanner.parse_document` (`str(document)`).  Strings print between
single quotes, `None`/`True`/`False` capitalised, dicts and lists in
insertion order.  (String escaping is not modelled; the development only
applies this to strings without quotes, backslashes or control
characters, where CPython performs no escaping either.) -/
def Value.pyRepr : Value → String
  | .str s => sq ++ s ++ sq
  | .int n => toString n
  | .bool b => if b then "True" else "False"
  | .null => "None"
  | .dict es => lbrace ++ joinComma (Value.pyReprEntries es) ++ rbrace
  | .list vs => "[" ++ joinComma (Value.pyReprList vs) ++ "]"

/-- `repr` of each `key: value` dict item. -/
def Value.pyReprEntries : List (String × Value) → List String
  | [] => []
  | (k, v) :: rest => (sq ++ k ++ sq ++ ": " ++ Value.pyRepr v) :: Value.pyReprEntries rest

/-- `repr` of each list element. -/
def Value.pyReprList : List Value → List String
  | [] => []
  | v :: rest => Value.pyRepr v :: Value.pyReprList rest

end

/-- UTF-8 encoding of one code point (RFC 3629), as `bytes` values 0..255. -/
def utf8Char (c : Char) : List Nat :=
  let n := c.toNat
  if n < 0x80 then [n]
  else if n < 0x800 then
    [0xC0 ||| (n >>> 6), 0x80 ||| (n &&& 0x3F)]
  else if n < 0x10000 then
    [0xE0 ||| (n >>> 12), 0x80 ||| ((n >>> 6) &&& 0x3F), 0x80 ||| (n &&& 0x3F)]
  else
    [0xF0 ||| (n >>> 18), 0x80 ||| ((n >>> 12) &&& 0x3F),
     0x80 ||| ((n >>> 6) &&& 0x3F), 0x80 ||| (n &&& 0x3F)]

/-- `s.encode("utf-8")` — the byte string a Python `str` hashes as. -/
def utf8Bytes (s : String) : List Nat :=
  s.data.flatMap utf8Char

/-! ### SHA-256 (`hashlib.sha256`), executable over byte lists

A direct transcription of FIPS 180-4 working in `Nat` with explicit
`% 2 ^ 32` reductions. -/

/-- 32-bit truncation. -/
def m32 (x : Nat) : Nat := x % 4294967296

/-- 32-bit right rotation. -/
def rotr (n x : Nat) : Nat := m32 ((x >>> n) ||| (x <<< (32 - n)))

/-- The SHA-256 round constants (FIPS 180-4 §4.2.2, in decimal). -/
def shaK : List Nat :=
  [1116352408, 1899447441, 3049323471, 3921009573, 961987163, 1508970993,
   2453635748, 2870763221, 3624381080, 310598401, 607225278, 1426881987,
   1925078388, 2162078206, 2614888103, 3248222580, 3835390401, 4022224774,
   264347078, 604807628, 770255983, 1249150122, 1555081692, 1996064986,
   2554220882, 2821834349, 2952996808, 3210313671, 3336571891, 3584528711,
   113926993, 338241895, 666307205, 773529912, 1294757372, 1396182291,
   1695183700, 1986661051, 2177026350, 2456956037, 2730485921, 2820302411,
   3259730800, 3345764771, 3516065817, 3600352804, 4094571909, 275423344,
   430227734, 506948616, 659060556, 883997877, 958139571, 1322822218,
   1537002063, 1747873779, 1955562222, 2024104815, 2227730452, 2361852424,
   2428436474, 2756734187, 3204031479, 3329325298]

/-- The SHA-256 initial hash state (FIPS 180-4 §5.3.3, in decimal). -/
def shaH0 : List Nat :=
  [1779033703, 3144134277, 1013904242, 2773480762,
   1359893119, 2600822924, 528734635, 1541459225]

/-- Big-endian bytes of `x`, `n` bytes wide. -/
def beBytes : Nat → Nat → List Nat
  | 0, _ => []
  | n + 1, x => beBytes n (x >>> 8) ++ [x % 256]

/-- SHA-256 message padding: `0x80`, zeros to 56 mod 64, then the 64-bit
big-endian bit length. -/
def shaPad (msg : List Nat) : List Nat :=
  let l := msg.length
  let zeros := (119 - (l % 64)) % 64
  msg ++ 0x80 :: List.replicate zeros 0 ++ beBytes 8 ((8 * l) % (2 ^ 64))

/-- Split a byte list into 64-byte blocks (`fuel` bounds the recursion by
the list length). -/
def blocks64 : Nat → List Nat → List (List Nat)
  | 0, _ => []
  | _, [] => []
  | fuel + 1, l => l.take 64 :: blocks64 fuel (l.drop 64)

/-- The sixteen 32-bit big-endian words of one 64-byte block. -/
def blockWords : List Nat → List Nat
  | b0 :: b1 :: b2 :: b3 :: rest =>
      (b0 <<< 24 ||| b1 <<< 16 ||| b2 <<< 8 ||| b3) :: blockWords rest
  | _ => []

/-- Message-schedule extension: grow the 16 block words to 64. -/
def shaExtend (w : List Nat) : Nat → List Nat
  | 0 => w
  | count + 1 =>
      let t := w.length
      let s0x := w.getD (t - 15) 0
      let s1x := w.getD (t - 2) 0
      let s0 := (rotr 7 s0x) ^^^ (rotr 18 s0x) ^^^ (s0x >>> 3)
      let s1 := (rotr 17 s1x) ^^^ (rotr 19 s1x) ^^^ (s1x >>> 10)
      shaExtend (w ++ [m32 (w.getD (t - 16) 0 + s0 + w.getD (t - 7) 0 + s1)]) count

/-- One compression round. -/
def shaRound (st : List Nat) (kw : Nat × Nat) : List Nat :=
  match st with
  | [a, b, c, d, e, f, g, h] =>
      let sig1 := (rotr 6 e) ^^^ (rotr 11 e) ^^^ (rotr 25 e)
      let ch := (e &&& f) ^^^ ((4294967295 - e) &&& g)
      let t1 := m32 (h + sig1 + ch + kw.1 + kw.2)
      let sig0 := (rotr 2 a) ^^^ (rotr 13 a) ^^^ (rotr 22 a)
      let mj := (a &&& b) ^^^ (a &&& c) ^^^ (b &&& c)
      let t2 := m32 (sig0 + mj)
      [m32 (t1 + t2), a, b, c, m32 (d + t1), e, f, g]
  | other => other

/-- Compress one block into the running hash state. -/
def shaCompress (h : List Nat) (block : List Nat) : List Nat :=
  let w := shaExtend (blockWords block) 48
  let st := (shaK.zip w).foldl shaRound h
  (h.zip st).map (fun p => m32 (p.1 + p.2))

/-- Lower-case hex of one 32-bit word. -/
def hex32 (x : Nat) : String :=
  let digit := fun (n : Nat) =>
    if n < 10 then Char.ofNat (48 + n) else Char.ofNat (87 + n)
  String.mk ((List.range 8).map fun i => digit ((x >>> (28 - 4 * i)) &&& 15))

/-- `hashlib.sha256(bytes).hexdigest()`. -/
def sha256Hex (msg : List Nat) : String :=
  let padded := shaPad msg
  let hs := (blocks64 padded.length padded).foldl shaCompress shaH0
  String.join (hs.map hex32)

/-! ## `core/yaml_scanner/models.py` — `ResourceData` and friends

The dataclass fields `str | None` become `Option String`; the `data`
dict (default `None`) becomes an entry list, with `[]` standing for both
`None` and `{}` (the two are interchangeable everywhere the scanner
tests `resource.data` for truthiness or defaults it with `or {}`). -/

/-- `ResourceData` — parsed Kubernetes resource data (one YAML document). -/
structure ResourceData where
  api_version : String
  kind : String
  file_path : String
  file_hash : String
  name : Option String := none
  «namespace» : Option String := none
  version : Option String := none
  data : List (String × Value) := []

/-- The `f"{self.namespace}:" if self.namespace else ""` part of
`resource_key`: both `None` and the empty string are falsy. -/
def nsPart : Option String → String
  | some s => if s == "" then "" else s ++ ":"
  | none => ""

/-- `ResourceData.resource_key` — the identity key under which resources
are diffed: `apiVersion:kind:[namespace:]name`.  (The file path is not
part of it.) -/
def ResourceData.resource_key (r : ResourceData) : String :=
  r.api_version ++ ":" ++ r.kind ++ ":" ++ nsPart r.namespace ++ pyFormatOpt r.name

/-! ## `core/yaml_scanner/resource_scanners/` — the per-kind scanners

The four concrete scanners of `resource_scanners/flux/` are enumerated;
dispatch order follows `FluxResourceScanner.scanners`.  Documents are the
entry lists of their top-level dict.  A `none` result models a raised
`ValueError` (caught by `RepositoryScanner.process_document`).

Scanner fields that Python would fill with non-string YAML values
(a numeric `metadata.name`, a non-dict `spec`…) are outside this model;
every input used below is well-typed in that sense. -/

/-- A parsed YAML document: the entries of its top-level mapping. -/
abbrev Doc := List (String × Value)

/-- `d.get(k)` restricted to string values. -/
def getStr (d : Doc) (k : String) : Option String :=
  match lookupEntry k d with
  | some (.str s) => some s
  | _ => none

/-- The four concrete Flux scanners, in the order of
`FluxResourceScanner.scanners`. -/
inductive ScannerKind where
  | helmRelease | gitRepository | kustomization | ociRepository

/-- The `scanners` list of `FluxResourceScanner`. -/
def scannerList : List ScannerKind :=
  [.helmRelease, .gitRepository, .kustomization, .ociRepository]

/-- Each scanner's `resource_types` set of `(api_version_prefix, kind)`. -/
def resourceTypes : ScannerKind → List (String × String)
  | .helmRelease => [("helm.toolkit.fluxcd.io/v2", "HelmRelease")]
  | .gitRepository => [("source.toolkit.fluxcd.io", "GitRepository")]
  | .kustomization => [("kustomize.toolkit.fluxcd.io", "Kustomization")]
  | .ociRepository => [("source.toolkit.fluxcd.io", "OCIRepository")]

/-- `ResourceScanner.is_supported_resource`: prefix match on apiVersion,
exact match on kind. -/
def isSupportedBy (sk : ScannerKind) (api kind : String) : Bool :=
  (resourceTypes sk).any fun pk => strStartsWith api pk.1 && kind == pk.2

/-- `FluxResourceScanner.is_supported_resource`: first sub-scanner that
matches. -/
def fluxSupport (api kind : String) : Option ScannerKind :=
  scannerList.find? fun sk => isSupportedBy sk api kind

/-- `ResourceScanner.extract_additional_data`: the document's `spec`
subtree (`{}` when absent or empty); `KustomizationResourceScanner`
overrides it to return `{}` unconditionally. -/
def extractAdditionalData (sk : ScannerKind) (document : Doc) : Doc :=
  match sk with
  | .kustomization => []
  | _ =>
      match lookupEntry "spec" document with
      | some (.dict es) => es
      | _ => []

/-- `document.get("metadata", {}).get(field)` for the two metadata
fields; fails (Python `AttributeError`) when `metadata` is not a
mapping. -/
def metaField (document : Doc) (field : String) : Option (Option String) :=
  match lookupEntry "metadata" document with
  | none => some none
  | some (.dict es) => some (getStr es field)
  | some _ => none

/-- `ResourceScanner.parse_document` (the shared base implementation):
checks `apiVersion`/`kind` are present and truthy, hashes
`str(document)` with SHA-256, and pulls name/namespace out of
`metadata`. -/
def baseParseDocument (sk : ScannerKind) (filepath : String) (document : Doc) :
    Option ResourceData :=
  match getStr document "apiVersion", getStr document "kind" with
  | some api, some kind =>
      if api == "" || kind == "" then none
      else
        match metaField document "name", metaField document "namespace" with
        | some nm, some ns =>
            some { api_version := api
                   kind := kind
                   file_hash := sha256Hex (utf8Bytes (Value.pyRepr (.dict document)))
                   file_path := filepath
                   name := nm
                   «namespace» := ns
                   data := extractAdditionalData sk document }
        | _, _ => none
  | _, _ => none

/-- A chain of `.get(k, {})` calls ending in a string field. -/
def chainGetStr (document : Doc) : List String → Option String
  | [] => none
  | [k] => getStr document k
  | k :: rest =>
      match lookupEntry k document with
      | some (.dict es) => chainGetStr es rest
      | _ => none

/-- The concrete scanner's `parse_document`: the base parse plus the
kind-specific `version` extraction (`spec.chart.spec.version` for
HelmRelease, `spec.ref.tag` for OCIRepository). -/
def scannerParseDocument (sk : ScannerKind) (filepath : String) (document : Doc) :
    Option ResourceData :=
  (baseParseDocument sk filepath document).map fun r =>
    match sk with
    | .helmRelease =>
        { r with version := chainGetStr document ["spec", "chart", "spec", "version"] }
    | .ociRepository =>
        { r with version := chainGetStr document ["spec", "ref", "tag"] }
    | _ => r

/-- `FluxResourceScanner.parse_document`: dispatch to the first matching
sub-scanner; `ValueError` (= `none`) when apiVersion/kind are missing or
no scanner matches. -/
def fluxParseDocument (filepath : String) (document : Doc) : Option ResourceData :=
  match getStr document "apiVersion", getStr document "kind" with
  | some api, some kind =>
      if api == "" || kind == "" then none
      else
        match fluxSupport api kind with
        | some sk => scannerParseDocument sk filepath document
        | none => none
  | _, _ => none

/-! ### `FluxResourceScanner.post_process`

`pathlib.PurePosixPath` values are modelled by their `parts` tuples
(component lists, with empty and `.` components normalised away).
Python dict insertion semantics (first position kept, value overwritten)
are modelled by `updateAssoc`. -/

/-- `PurePosixPath(p).parts` for the relative paths the scanner uses. -/
def pathParts (p : String) : List String :=
  ((splitChar (Char.ofNat 47) p.data).map String.mk).filter fun s => s != "" && s != "."

/-- `Path(p).parent.parts`. -/
def parentParts (p : String) : List String :=
  (pathParts p).dropLast

/-- `d[k] = v` on an insertion-ordered dict: overwrite in place, else
append. -/
def updateAssoc {α β : Type} [BEq α] (k : α) (v : β) : List (α × β) → List (α × β)
  | [] => [(k, v)]
  | (k', v') :: rest =>
      if k' == k then (k, v) :: rest else (k', v') :: updateAssoc k v rest

/-- First-match lookup in a generic assoc list (`d.get(k)`). -/
def lookupAssoc {α β : Type} [BEq α] (k : α) : List (α × β) → Option β
  | [] => none
  | (k', v) :: rest => if k' == k then some v else lookupAssoc k rest

/-- The condition under which the first loop of `post_process` records a
Kustomization's directory: matching apiVersion prefix and kind, truthy
`data`. -/
def kustCond (r : ResourceData) : Bool :=
  strStartsWith r.api_version "kustomize.toolkit.fluxcd.io"
    && r.kind == "Kustomization" && !r.data.isEmpty

/-- The condition under which the first loop of `post_process` records an
OCIRepository's version. -/
def ociCond (r : ResourceData) : Bool :=
  strStartsWith r.api_version "source.toolkit.fluxcd.io"
    && r.kind == "OCIRepository"

/-- The first loop of `post_process`, `path_ns_map` part: directory of
each Kustomization with truthy `data`, mapped to `data.get("targetNamespace")`. -/
def pathNsMap (resources : List ResourceData) : List (List String × Option String) :=
  resources.foldl
    (fun m r =>
      if kustCond r then
        updateAssoc (parentParts r.file_path) (getStr r.data "targetNamespace") m
      else m)
    []

/-- The first loop of `post_process`, `oci_versions` part: OCIRepository
name → version. -/
def ociVersions (resources : List ResourceData) : List (Option String × Option String) :=
  resources.foldl
    (fun m r => if ociCond r then updateAssoc r.name r.version m else m)
    []

/-- Second loop of `post_process`, namespace step: a resource without a
namespace takes the target namespace of the first map entry whose
directory its path is relative to (and stops at the first match). -/
def inheritNamespace (pnsMap : List (List String × Option String)) (r : ResourceData) :
    ResourceData :=
  if r.namespace.isNone then
    match pnsMap.find? (fun e => e.1.isPrefixOf (pathParts r.file_path)) with
    | some e => { r with «namespace» := e.2 }
    | none => r
  else r

/-- `resource.data.get("chartRef", {}).get("name")`. -/
def chartRefName (data : Doc) : Option String :=
  match lookupEntry "chartRef" data with
  | some (.dict es) => getStr es "name"
  | _ => none

/-- Second loop of `post_process`, version step: a HelmRelease without a
version and with truthy `data` takes `oci_versions.get(chartRef.name)`. -/
def propagateVersion (ociMap : List (Option String × Option String)) (r : ResourceData) :
    ResourceData :=
  if r.version.isNone && strStartsWith r.api_version "helm.toolkit.fluxcd.io"
      && r.kind == "HelmRelease" && !r.data.isEmpty then
    { r with version := (lookupAssoc (chartRefName r.data) ociMap).join }
  else r

/-- One resource's passage through the second loop of `post_process`:
the namespace step, then the version step. -/
def postStep (pns : List (List String × Option String))
    (oci : List (Option String × Option String)) (r : ResourceData) : ResourceData :=
  propagateVersion oci (inheritNamespace pns r)

/-- `FluxResourceScanner.post_process`: both lookup maps are built from
the full input list, then every resource passes through the namespace
step and the version step.  (The trailing per-kind `post_process` calls
are all no-ops.) -/
def postProcess (resources : List ResourceData) : List ResourceData :=
  resources.map (postStep (pathNsMap resources) (ociVersions resources))

/-! ## `core/yaml_scanner/repository_scanner.py` — `RepositoryScanner`

The filesystem and the external YAML library are the inputs: a directory
is a list of `(relative path, parse outcome)` pairs in the sorted order
`find_yaml_files` produces, where the outcome is either a YAML syntax /
encoding / read error or the list of parsed documents
(`yaml.safe_load_all`). -/

/-- `RepositoryScanner.process_document`: skip non-mappings and documents
without truthy `apiVersion`/`kind`, skip unsupported kinds, parse with
the Flux scanner (a raised error skips the document), then validate
required fields for truthiness. -/
def processDocument (relative_path : String) (document : Value) (doc_index : Nat) :
    Option ResourceData :=
  match document with
  | .dict d =>
      match getStr d "apiVersion", getStr d "kind" with
      | some api, some kind =>
          if api == "" || kind == "" then none
          else if (fluxSupport api kind).isNone then none
          else
            let file_identifier :=
              if doc_index > 0 then relative_path ++ "#" ++ toString doc_index
              else relative_path
            (fluxParseDocument file_identifier d).bind fun rd =>
              if validateResourceData rd then some rd else none
      | _, _ => none
  | _ => none
where
  /-- `RepositoryScanner._validate_resource_data`: all of apiVersion,
  kind, name, filePath, fileHash truthy. -/
  validateResourceData (rd : ResourceData) : Bool :=
    rd.api_version != "" && rd.kind != ""
      && (match rd.name with | some s => s != "" | none => false)
      && rd.file_path != "" && rd.file_hash != ""

/-- Is this parsed value YAML `null` (a document Python drops)? -/
def Value.isNull : Value → Bool
  | .null => true
  | _ => false

/-- `RepositoryScanner.process_yaml_file` given the parsed documents:
`parse_yaml_file` filters out empty (`None`) documents, then each
document is processed with its index (a failing document is skipped). -/
def processYamlFileDocs (relative_path : String) (docs : List Value) :
    List ResourceData :=
  ((docs.filter fun d => !d.isNull).enum).filterMap fun p =>
    processDocument relative_path p.2 p.1

/-- `RepositoryScanner.scan_directory` over the parse outcomes of the
directory's YAML files: files whose parsing raised are skipped
(`except Exception: continue`), the survivors' resources are
concatenated, and `FluxResourceScanner.post_process` runs on the result
when it is non-empty. -/
def scanCollect (files : List (String × Except Unit (List Value))) :
    List ResourceData :=
  files.flatMap fun fp =>
    match fp.2 with
    | .error _ => []
    | .ok docs => processYamlFileDocs fp.1 docs

/-- The body of `scan_directory`: collect, then post-process when
non-empty. -/
def scanDirectory (files : List (String × Except Unit (List Value))) :
    List ResourceData :=
  let resources := scanCollect files
  if resources.isEmpty then resources else postProcess resources

/-! ## `core/yaml_scanner/resource_db_service.py` — `ResourceDatabaseService`

The persisted state is a list of resource rows plus a list of lifecycle
event rows, with a fresh-id counter standing for primary-key generation.
The SQLAlchemy session is modelled by explicit state passing: queries and
mutations act on the session's working state, `commit` publishes it, and
the `except …: session.rollback(); raise` handler discards it, leaving
the previously committed state observable.

Modelled from the spec: the generation of `kubestats/models.py` that
`resource_db_service.py` imports (a `KubernetesResource` with `status`,
`version`, `data`, `deleted_at`, `created_at`, `updated_at` columns and a
`resource_key()` method, and a `KubernetesResourceEvent` table) is not
among these sources — the `models.py` present carries the earlier
`current_status`-based shape used by `scanner.py`.  The row and event
shapes below are reconstructed from the fields `resource_db_service.py`
reads and writes and from its unit tests; per the comment in
`get_existing_resources` ("using the same key format as `ResourceData`"),
`resource_key()` mirrors `ResourceData.resource_key`. -/

/-- One persisted `KubernetesResource` row, in the shape
`resource_db_service.py` operates on. -/
structure KubernetesResourceRow where
  id : Nat
  repository_id : Nat
  api_version : String
  kind : String
  name : Option String
  «namespace» : Option String
  file_path : String
  file_hash : String
  version : Option String
  data : List (String × Value)
  status : String
  deleted_at : Option Nat
  created_at : Nat
  updated_at : Nat

/-- `KubernetesResource.resource_key()` — same format as
`ResourceData.resource_key` (see the module comment above). -/
def KubernetesResourceRow.resource_key (r : KubernetesResourceRow) : String :=
  r.api_version ++ ":" ++ r.kind ++ ":" ++ nsPart r.namespace ++ pyFormatOpt r.name

/-- One persisted `KubernetesResourceEvent` (lifecycle event) row. -/
structure KubernetesResourceEvent where
  resource_id : Nat
  repository_id : Nat
  event_type : String
  event_timestamp : Nat
  resource_name : Option String
  resource_namespace : Option String
  resource_kind : String
  resource_api_version : String
  file_path : Option String
  file_hash_before : Option String
  file_hash_after : Option String
  changes_detected : List String
  resource_data : List (String × Value)
  sync_run_id : Nat

/-- `ResourceChange` from `core/yaml_scanner/models.py`. -/
structure ResourceChange where
  type : String
  resource_data : Option ResourceData := none
  existing_resource : Option KubernetesResourceRow := none
  file_hash_before : Option String := none
  file_hash_after : Option String := none
  detailed_changes : Option (List String) := none

/-- `ChangeSet` from `core/yaml_scanner/models.py`. -/
structure ChangeSet where
  created : List ResourceChange := []
  modified : List ResourceChange := []
  deleted : List ResourceChange := []

/-- `ScanResult` from `core/yaml_scanner/models.py` (the float scan
duration is omitted; no claim concerns it). -/
structure ScanResult where
  created_count : Nat
  modified_count : Nat
  deleted_count : Nat
  total_resources : Nat
  sync_run_id : Nat

/-- The persisted database state: resource rows, lifecycle event rows,
and the primary-key allocator. -/
structure DB where
  rows : List KubernetesResourceRow := []
  events : List KubernetesResourceEvent := []
  nextId : Nat := 0

/-- `get_existing_resources`: the repository's ACTIVE rows as a dict
keyed by `resource_key()` (later rows overwrite earlier ones under the
same key, as the Python loop does). -/
def getExistingResources (db : DB) (repo : Nat) :
    List (String × KubernetesResourceRow) :=
  (db.rows.filter fun r => r.repository_id == repo && r.status == "ACTIVE").foldl
    (fun m r => updateAssoc r.resource_key r m) []

/-- `get_deleted_resource`: the first DELETED row of the repository whose
apiVersion, kind, name and namespace equal the scanned resource's
(`.first()` on the query). -/
def getDeletedResource (db : DB) (repo : Nat) (rd : ResourceData) :
    Option KubernetesResourceRow :=
  db.rows.find? fun r =>
    r.repository_id == repo && r.api_version == rd.api_version
      && r.kind == rd.kind && r.name == rd.name
      && r.namespace == rd.namespace && r.status == "DELETED"

/-- The per-scanned-resource branch of `compare_resources`: MODIFIED when
the key is active with a different hash, nothing when the hash matches,
else RESURRECTED when a matching deleted row exists, else CREATED. -/
def scanChange (existing : List (String × KubernetesResourceRow)) (db : DB)
    (repo : Nat) (rd : ResourceData) : Option ResourceChange :=
  match lookupAssoc rd.resource_key existing with
  | some ex =>
      if ex.file_hash != rd.file_hash then
        some { type := "MODIFIED", resource_data := some rd, existing_resource := some ex,
               file_hash_before := some ex.file_hash, file_hash_after := some rd.file_hash }
      else none
  | none =>
      match getDeletedResource db repo rd with
      | some d =>
          some { type := "RESURRECTED", resource_data := some rd, existing_resource := some d,
                 file_hash_before := some d.file_hash, file_hash_after := some rd.file_hash }
      | none =>
          some { type := "CREATED", resource_data := some rd,
                 file_hash_after := some rd.file_hash }

/-- `compare_resources`.  The Python loop appends CREATED changes to
`changeset.created` and both MODIFIED and RESURRECTED changes to
`changeset.modified`, in scanned order; the second loop emits DELETED for
every dict entry whose key was not scanned, in dict order.  The
`filterMap`/`filter` form below produces those three lists in exactly
that order. -/
def compareResources (existing : List (String × KubernetesResourceRow))
    (scanned : List ResourceData) (db : DB) (repo : Nat) : ChangeSet :=
  let changes := scanned.filterMap (scanChange existing db repo)
  let scannedKeys := scanned.map ResourceData.resource_key
  { created := changes.filter fun c => c.type == "CREATED"
    modified := changes.filter fun c => c.type == "MODIFIED" || c.type == "RESURRECTED"
    deleted := existing.filterMap fun e =>
      if scannedKeys.contains e.1 then none
      else some { type := "DELETED", existing_resource := some e.2,
                  file_hash_before := some e.2.file_hash } }

/-- Replace the session's copy of a row (mutation of an ORM object held
by the session), identified by primary key. -/
def setRow (db : DB) (row : KubernetesResourceRow) : DB :=
  { db with rows := db.rows.map fun r => if r.id == row.id then row else r }

/-- `_create_resource`: insert a fresh ACTIVE row built from the
`ResourceData` (the `flush` assigns its id) plus its CREATED event. -/
def createResource (db : DB) (repo : Nat) (rd : ResourceData) (sync now : Nat) :
    DB × KubernetesResourceRow × KubernetesResourceEvent :=
  let row : KubernetesResourceRow :=
    { id := db.nextId, repository_id := repo, api_version := rd.api_version,
      kind := rd.kind, name := rd.name, «namespace» := rd.namespace,
      file_path := rd.file_path, file_hash := rd.file_hash, version := rd.version,
      data := rd.data, status := "ACTIVE", deleted_at := none,
      created_at := now, updated_at := now }
  let ev : KubernetesResourceEvent :=
    { resource_id := row.id, repository_id := repo, event_type := "CREATED",
      event_timestamp := now, resource_name := rd.name,
      resource_namespace := rd.namespace, resource_kind := rd.kind,
      resource_api_version := rd.api_version, file_path := some rd.file_path,
      file_hash_before := none, file_hash_after := some rd.file_hash,
      changes_detected := ["resource_created"], resource_data := rd.data,
      sync_run_id := sync }
  ({ rows := db.rows ++ [row], events := db.events ++ [ev], nextId := db.nextId + 1 },
   row, ev)

/-- `_resurrect_resource`: reuse the deleted row (same id), refresh its
file data, set it ACTIVE with `deleted_at = None`, and emit a
RESURRECTED event carrying the old hash as "before". -/
def resurrectResource (db : DB) (ex : KubernetesResourceRow) (rd : ResourceData)
    (sync now : Nat) : DB × KubernetesResourceRow × KubernetesResourceEvent :=
  let oldHash := ex.file_hash
  let row := { ex with
    file_path := rd.file_path, file_hash := rd.file_hash,
    version := rd.version, data := rd.data, status := "ACTIVE",
    deleted_at := none, updated_at := now }
  let ev : KubernetesResourceEvent :=
    { resource_id := ex.id, repository_id := ex.repository_id,
      event_type := "RESURRECTED", event_timestamp := now,
      resource_name := ex.name, resource_namespace := ex.namespace,
      resource_kind := ex.kind, resource_api_version := ex.api_version,
      file_path := some rd.file_path, file_hash_before := some oldHash,
      file_hash_after := some rd.file_hash,
      changes_detected := ["resource_resurrected"], resource_data := rd.data,
      sync_run_id := sync }
  ({ setRow db row with events := db.events ++ [ev] }, row, ev)

/-- `_update_resource`: refresh the active row's file data (status and
`deleted_at` untouched) and emit a MODIFIED event with the coarse
`changes_detected` list. -/
def updateResource (db : DB) (ex : KubernetesResourceRow) (rd : ResourceData)
    (sync now : Nat) : DB × KubernetesResourceRow × KubernetesResourceEvent :=
  let oldHash := ex.file_hash
  let changes :=
    (if ex.file_hash != rd.file_hash then ["file_content"] else [])
      ++ (if ex.file_path != rd.file_path then ["file_path"] else [])
      ++ (if ex.version != rd.version then ["version"] else [])
  let row := { ex with
    file_path := rd.file_path, file_hash := rd.file_hash,
    version := rd.version, data := rd.data, updated_at := now }
  let ev : KubernetesResourceEvent :=
    { resource_id := ex.id, repository_id := ex.repository_id,
      event_type := "MODIFIED", event_timestamp := now,
      resource_name := ex.name, resource_namespace := ex.namespace,
      resource_kind := ex.kind, resource_api_version := ex.api_version,
      file_path := some rd.file_path, file_hash_before := some oldHash,
      file_hash_after := some rd.file_hash, changes_detected := changes,
      resource_data := rd.data, sync_run_id := sync }
  ({ setRow db row with events := db.events ++ [ev] }, row, ev)

/-- `_delete_resource`: soft-delete — status DELETED with `deleted_at`
set — plus its DELETED event. -/
def deleteResource (db : DB) (ex : KubernetesResourceRow) (sync now : Nat) :
    DB × KubernetesResourceRow × KubernetesResourceEvent :=
  let row := { ex with status := "DELETED", deleted_at := some now, updated_at := now }
  let ev : KubernetesResourceEvent :=
    { resource_id := ex.id, repository_id := ex.repository_id,
      event_type := "DELETED", event_timestamp := now,
      resource_name := ex.name, resource_namespace := ex.namespace,
      resource_kind := ex.kind, resource_api_version := ex.api_version,
      file_path := some ex.file_path, file_hash_before := some ex.file_hash,
      file_hash_after := none, changes_detected := ["resource_deleted"],
      resource_data := ex.data, sync_run_id := sync }
  ({ setRow db row with events := db.events ++ [ev] }, row, ev)

/-- Apply one `ResourceChange` to the session state, as the three loops
of `apply_scan_results` do.  (The `none` fall-throughs are unreachable
for changesets produced by `compare_resources`, which always populates
the fields each change type needs.) -/
def applyChange (db : DB) (repo : Nat) (c : ResourceChange) (sync now : Nat) : DB :=
  if c.type == "CREATED" then
    match c.resource_data with
    | some rd => (createResource db repo rd sync now).1
    | none => db
  else if c.type == "RESURRECTED" then
    match c.existing_resource, c.resource_data with
    | some ex, some rd => (resurrectResource db ex rd sync now).1
    | _, _ => db
  else if c.type == "MODIFIED" then
    match c.existing_resource, c.resource_data with
    | some ex, some rd => (updateResource db ex rd sync now).1
    | _, _ => db
  else
    match c.existing_resource with
    | some ex => (deleteResource db ex sync now).1
    | none => db

/-- Which step of `apply_scan_results` raises, if any: one of the
per-change persistence steps (counted over created, then modified, then
deleted) or the final `session.commit()`. -/
inductive Failure where
  | noFail
  | failAtOp (i : Nat)
  | failAtCommit

/-- Run the per-change steps in order, raising (`.error`) at the injected
failure index. -/
def runOps (repo sync now : Nat) (failAt : Option Nat) :
    List ResourceChange → Nat → DB → Except Unit DB
  | [], _, db => .ok db
  | c :: rest, i, db =>
      if failAt == some i then .error ()
      else runOps repo sync now failAt rest (i + 1) (applyChange db repo c sync now)

/-- The per-change failure index an injected `Failure` corresponds to. -/
def failIndex : Failure → Option Nat
  | .failAtOp i => some i
  | _ => none

/-- Does the injected `Failure` make `session.commit()` raise? -/
def commitFails : Failure → Bool
  | .failAtCommit => true
  | _ => false

/-- The body of `apply_scan_results` inside its `try`: detect changes on
the session state, apply them and record lifecycle events, then commit;
`.error` is a raised exception at any of those steps. -/
def applyScanCore (working : DB) (repo : Nat) (resources : List ResourceData)
    (sync now : Nat) (fail : Failure) : Except Unit (ScanResult × DB) :=
  let existing := getExistingResources working repo
  let cs := compareResources existing resources working repo
  match runOps repo sync now (failIndex fail)
      (cs.created ++ cs.modified ++ cs.deleted) 0 working with
  | .error _ => .error ()
  | .ok working2 =>
      if commitFails fail then .error ()
      else
        .ok ({ created_count := cs.created.length
               modified_count := cs.modified.length
               deleted_count := cs.deleted.length
               total_resources := existing.length + cs.created.length - cs.deleted.length
               sync_run_id := sync },
          working2)

/-- `apply_scan_results`: open a session on the committed state and run
the scan body; an exception anywhere reaches the `except` handler, which
rolls the session back and re-raises — so the pair returned is the
outcome together with the state observable afterwards (the committed
state on failure, the newly committed session state on success). -/
def applyScanResults (committed : DB) (repo : Nat) (resources : List ResourceData)
    (sync now : Nat) (fail : Failure) : Except Unit ScanResult × DB :=
  match applyScanCore committed repo resources sync now fail with
  | .error e => (.error e, committed)
  | .ok (sr, working2) => (.ok sr, working2)

/-! ## `core/yaml_scanner/change_detector.py` — `ChangeDetector`

`ChangeDetector` belongs to the `YAMLScanner` pipeline, which works
against the `KubernetesResource` shape of the `models.py` present in
these sources (`current_status`, `spec`, `resource_metadata` columns) and
a `ResourceData` shape carrying `metadata`/`spec` fields.  Those are
embedded below with a `Legacy` prefix to keep them apart from the
`resource_db_service` generation above. -/

/-- `kubestats/models.py` `KubernetesResource` (the fields
`change_detector.py` reads). -/
structure LegacyKubernetesResource where
  api_version : String
  kind : String
  name : String
  «namespace» : Option String
  file_path : String
  file_hash : String
  resource_metadata : Doc
  spec : Doc
  current_status : String

/-- The `ResourceData` shape `change_detector.py` and `parser.py` use
(`metadata`/`spec` fields). -/
structure LegacyResourceData where
  api_version : String
  kind : String
  name : String
  «namespace» : Option String
  file_path : String
  file_hash : String
  metadata : Doc
  spec : Doc

/-- A `ResourceChange` of the `YAMLScanner` pipeline. -/
structure LegacyResourceChange where
  type : String
  resource_data : Option LegacyResourceData := none
  existing_resource : Option LegacyKubernetesResource := none
  file_hash_before : Option String := none
  file_hash_after : Option String := none
  detailed_changes : Option (List String) := none

/-- A `ChangeSet` of the `YAMLScanner` pipeline. -/
structure LegacyChangeSet where
  created : List LegacyResourceChange := []
  modified : List LegacyResourceChange := []
  deleted : List LegacyResourceChange := []

/-- The key iteration order of `set(old) | set(new)`.  CPython iterates a
string set in an unspecified order; this embedding fixes the
deterministic order "keys of `old`, then keys of `new` not in `old`",
which agrees with the Python set on membership.  No claim below depends
on the order of the produced path list. -/
def allKeys (old new : Doc) : List String :=
  old.map Prod.fst ++ (new.map Prod.fst).filter fun k => !hasKey k old

/-- Are both values mappings (`isinstance(_, dict)` on both sides)? -/
def bothDicts : Value → Value → Bool
  | .dict _, .dict _ => true
  | _, _ => false

/-- A value found by dictionary lookup is structurally smaller than the
dictionary (termination measure for the recursive diff). -/
theorem sizeOf_lookupEntry {k : String} {d : List (String × Value)} {v : Value}
    (h : lookupEntry k d = some v) : sizeOf v < sizeOf d := by
  induction d with
  | nil => simp [lookupEntry] at h
  | cons e rest ih =>
      rw [lookupEntry] at h
      by_cases he : e.1 == k
      · simp [he] at h
        cases e with
        | mk k' v' =>
            subst h
            simp
            omega
      · simp [he] at h
        have := ih h
        cases e with
        | mk k' v' =>
            simp
            omega

/-- `compare_nested` of `ChangeDetector.analyze_detailed_changes`: for
each key of either side, report `path.k (added)` / `path.k (removed)`
for one-sided keys, recurse when two unequal dicts meet, and report
`path.k` for any other unequal pair. -/
def compareNested (old new : Doc) (path : String) : List String :=
  (allKeys old new).flatMap fun k =>
    if hasKey k old = false then [path ++ "." ++ k ++ " (added)"]
    else if hasKey k new = false then [path ++ "." ++ k ++ " (removed)"]
    else
      match h3 : lookupEntry k old, lookupEntry k new with
      | some v, some w =>
          if Value.pyEq v w then []
          else
            match h5 : v, w with
            | .dict a, .dict b => compareNested a b (path ++ "." ++ k)
            | _, _ => [path ++ "." ++ k]
      | _, _ => []
termination_by sizeOf old
decreasing_by
  have hv := sizeOf_lookupEntry h3
  simp at hv
  omega

/-- `ChangeDetector.analyze_detailed_changes`: the recursive comparison
rooted at path `"spec"`. -/
def analyzeDetailedChanges (old_spec new_spec : Doc) : List String :=
  compareNested old_spec new_spec "spec"

/-- `ChangeDetector.detect_changes`: created = filesystem keys absent
from the database dict, deleted = database keys absent from the
filesystem dict, modified = common keys with differing file hashes,
carrying the recursive spec diff. -/
def detectChanges (current : List (String × LegacyKubernetesResource))
    (filesystem : List (String × LegacyResourceData)) : LegacyChangeSet :=
  { created := filesystem.filterMap fun e =>
      if (lookupAssoc e.1 current).isNone then
        some { type := "CREATED", resource_data := some e.2,
               file_hash_after := some e.2.file_hash }
      else none
    deleted := current.filterMap fun e =>
      if (lookupAssoc e.1 filesystem).isNone then
        some { type := "DELETED", existing_resource := some e.2,
               file_hash_before := some e.2.file_hash }
      else none
    modified := filesystem.filterMap fun e =>
      match lookupAssoc e.1 current with
      | some ex =>
          if ex.file_hash != e.2.file_hash then
            some { type := "MODIFIED", existing_resource := some ex,
                   resource_data := some e.2,
                   file_hash_before := some ex.file_hash,
                   file_hash_after := some e.2.file_hash,
                   detailed_changes :=
                     some (analyzeDetailedChanges ex.spec e.2.spec) }
          else none
      | none => none }

/-! ## Claim C3 — the identity key

`ResourceData.resource_key` (and, per its own comment, the row key used
by `get_existing_resources`) is `apiVersion:kind:[namespace:]name`.  The
file path is **not** part of it, so no parser can recover the claimed
5-tuple from the key; the claim is refuted below and the 4-component
round trip is proved instead. -/

/-- `splitChar` never returns the empty list. -/
theorem splitChar_ne_nil (sep : Char) (l : List Char) : splitChar sep l ≠ [] := by
  induction l with
  | nil => simp [splitChar]
  | cons c rest ih =>
      rw [splitChar]
      by_cases h : c = sep
      · simp [h]
      · simp only [if_neg h]
        cases hr : splitChar sep rest with
        | nil => exact absurd hr ih
        | cons g gs => simp

/-- Splitting a separator-free list yields that single group. -/
theorem splitChar_of_no_sep (sep : Char) (l : List Char) (h : ∀ c ∈ l, c ≠ sep) :
    splitChar sep l = [l] := by
  induction l with
  | nil => rfl
  | cons c rest ih =>
      rw [splitChar]
      have hc : ¬c = sep := h c (by simp)
      simp only [if_neg hc]
      rw [ih fun x hx => h x (by simp [hx])]

/-- Splitting past a separator-free chunk peels it off as the first
group. -/
theorem splitChar_append (sep : Char) (xs ys : List Char) (h : ∀ c ∈ xs, c ≠ sep) :
    splitChar sep (xs ++ sep :: ys) = xs :: splitChar sep ys := by
  induction xs with
  | nil => simp [splitChar]
  | cons c rest ih =>
      have hc : ¬c = sep := h c (by simp)
      rw [List.cons_append, splitChar, if_neg hc,
        ih fun x hx => h x (by simp [hx])]

/-- Modelled from the spec (under the amendment to claim C3): parse an
identity key string back into `(apiVersion, kind, namespace?, name)` by
splitting at `:`; three segments mean no namespace, four mean a
namespace. -/
def parseIdentity (s : String) : Option (String × String × Option String × String) :=
  match splitChar (Char.ofNat 58) s.data with
  | [a, k, n] => some (String.mk a, String.mk k, none, String.mk n)
  | [a, k, ns, n] => some (String.mk a, String.mk k, some (String.mk ns), String.mk n)
  | _ => none

/-- Claim C3 is false as stated: the identity key omits the file path, so
no parser of keys can return every resource's
`(apiVersion, kind, namespace, name, filePath)` — two `ResourceData`
differing only in `file_path` share one key. -/
theorem C3_identity_counterexample :
    ¬ ∃ parse : String → String × String × Option String × Option String × String,
        ∀ r : ResourceData,
          parse r.resource_key =
            (r.api_version, r.kind, r.namespace, r.name, r.file_path) := by
  rintro ⟨parse, h⟩
  have h1 := h { api_version := "v1", kind := "Pod", file_path := "a.yaml",
                 file_hash := "h", name := some "x" }
  have h2 := h { api_version := "v1", kind := "Pod", file_path := "b.yaml",
                 file_hash := "h", name := some "x" }
  have hkey : (ResourceData.resource_key
      { api_version := "v1", kind := "Pod", file_path := "a.yaml",
        file_hash := "h", name := some "x" }) =
      (ResourceData.resource_key
      { api_version := "v1", kind := "Pod", file_path := "b.yaml",
        file_hash := "h", name := some "x" }) := by decide
  rw [hkey] at h1
  rw [h1] at h2
  simp at h2

/-- Claim C3, amended: a resource's identity key is the string
`apiVersion:kind:[namespace:]name` — the file path is not part of the
identity under which resources are diffed — and for colon-free
components (with a present, non-empty name and no empty namespace)
parsing the key recovers exactly `(apiVersion, kind, namespace, name)`. -/
theorem C3_identity_roundtrip (r : ResourceData) (nm : String)
    (hnm : r.name = some nm)
    (ha : ∀ c ∈ r.api_version.data, c ≠ Char.ofNat 58)
    (hk : ∀ c ∈ r.kind.data, c ≠ Char.ofNat 58)
    (hn : ∀ c ∈ nm.data, c ≠ Char.ofNat 58)
    (hns : ∀ ns, r.namespace = some ns → ns ≠ "" ∧ ∀ c ∈ ns.data, c ≠ Char.ofNat 58) :
    parseIdentity r.resource_key =
      some (r.api_version, r.kind, r.namespace, nm) := by
  have hc : (":" : String).data = [Char.ofNat 58] := by decide
  cases hrns : r.namespace with
  | none =>
      have hkey : r.resource_key.data =
          r.api_version.data ++ Char.ofNat 58 ::
            (r.kind.data ++ Char.ofNat 58 :: nm.data) := by
        simp [ResourceData.resource_key, hrns, hnm, nsPart, pyFormatOpt,
          String.data_append, hc]
      rw [parseIdentity, hkey, splitChar_append _ _ _ ha,
        splitChar_append _ _ _ hk, splitChar_of_no_sep _ _ hn]
  | some ns =>
      obtain ⟨hne, hnsc⟩ := hns ns hrns
      have hkey : r.resource_key.data =
          r.api_version.data ++ Char.ofNat 58 ::
            (r.kind.data ++ Char.ofNat 58 ::
              (ns.data ++ Char.ofNat 58 :: nm.data)) := by
        simp [ResourceData.resource_key, hrns, hnm, nsPart, pyFormatOpt,
          String.data_append, hc, if_neg hne]
      rw [parseIdentity, hkey, splitChar_append _ _ _ ha,
        splitChar_append _ _ _ hk, splitChar_append _ _ _ hnsc,
        splitChar_of_no_sep _ _ hn]

/-- Witness for the amended claim C3 at a concrete resource. -/
theorem C3_identity_roundtrip_witness :
    parseIdentity (ResourceData.resource_key
        { api_version := "helm.toolkit.fluxcd.io/v2", kind := "HelmRelease",
          file_path := "apps/grafana.yaml", file_hash := "h",
          name := some "grafana", «namespace» := some "monitoring" }) =
      some ("helm.toolkit.fluxcd.io/v2", "HelmRelease", some "monitoring",
        "grafana") :=
  C3_identity_roundtrip _ "grafana" rfl (by decide) (by decide) (by decide)
    (by intro ns hns; injection hns with h; subst h; exact ⟨by decide, by decide⟩)

/-! ## Claim C4 — the file hash

In the scanning pipeline the hash attached to a resource is
`sha256(str(document))` of the *parsed document* it came from
(`ResourceScanner.parse_document`), not a hash of the whole file's raw
bytes; two documents of one file carry different hashes. -/

/-- First document of the refuting two-document file. -/
def c4doc1 : Doc :=
  [("apiVersion", .str "helm.toolkit.fluxcd.io/v2"), ("kind", .str "HelmRelease"),
   ("metadata", .dict [("name", .str "a")])]

/-- Second document of the refuting two-document file. -/
def c4doc2 : Doc :=
  [("apiVersion", .str "helm.toolkit.fluxcd.io/v2"), ("kind", .str "HelmRelease"),
   ("metadata", .dict [("name", .str "b")])]

/-- Claim C4 is false as stated: the two resources extracted from one
two-document file carry two *different* `fileHash` values, not the hash
of the whole file's bytes applied identically to every document. -/
theorem C4_hash_counterexample :
    ((processYamlFileDocs "apps.yaml" [.dict c4doc1, .dict c4doc2]).map
        ResourceData.file_hash).length = 2 ∧
      ((processYamlFileDocs "apps.yaml" [.dict c4doc1, .dict c4doc2]).map
        ResourceData.file_hash).Nodup := by
  constructor
  · decide
  · decide

/-- Claim C4, amended: every parsed resource's `fileHash` is the SHA-256
of the UTF-8 bytes of the Python string form of *its own parsed
document*; consequently the hash is independent of the file path, of the
scan, and of the other documents in the file — re-parsing the same
document always yields the same hash. -/
theorem C4_per_document_hash :
    (∀ sk fp d r, scannerParseDocument sk fp d = some r →
        r.file_hash = sha256Hex (utf8Bytes (Value.pyRepr (.dict d))))
      ∧ (∀ sk sk' fp fp' d r r', scannerParseDocument sk fp d = some r →
          scannerParseDocument sk' fp' d = some r' →
          r.file_hash = r'.file_hash) := by
  have base : ∀ sk fp d b, baseParseDocument sk fp d = some b →
      b.file_hash = sha256Hex (utf8Bytes (Value.pyRepr (.dict d))) := by
    intro sk fp d b hb
    unfold baseParseDocument at hb
    cases h1 : getStr d "apiVersion" with
    | none => rw [h1] at hb; exact absurd hb (by simp)
    | some api =>
    cases h2 : getStr d "kind" with
    | none => rw [h1, h2] at hb; exact absurd hb (by simp)
    | some kd =>
    rw [h1, h2] at hb
    simp only at hb
    split at hb
    · exact absurd hb (by simp)
    · cases h3 : metaField d "name" with
      | none => rw [h3] at hb; exact absurd hb (by simp)
      | some nm =>
      cases h4 : metaField d "namespace" with
      | none => rw [h3, h4] at hb; exact absurd hb (by simp)
      | some ns =>
      rw [h3, h4] at hb
      simp only [Option.some.injEq] at hb
      rw [← hb]
  have main : ∀ sk fp d r, scannerParseDocument sk fp d = some r →
      r.file_hash = sha256Hex (utf8Bytes (Value.pyRepr (.dict d))) := by
    intro sk fp d r h
    unfold scannerParseDocument at h
    cases hb : baseParseDocument sk fp d with
    | none => rw [hb] at h; simp at h
    | some b =>
        rw [hb] at h
        simp at h
        have hfh := base sk fp d b hb
        cases sk <;> (rw [← h]; simp [hfh])
  exact ⟨main, fun sk sk' fp fp' d r r' h h' => by
    rw [main sk fp d r h, main sk' fp' d r' h']⟩

/-- Witness for the amended claim C4: parsing the same document from two
different files (and under two different scanners' dispatch) yields the
same hash. -/
theorem C4_per_document_hash_witness :
    (scannerParseDocument .helmRelease "a/x.yaml" c4doc1).map
        ResourceData.file_hash =
      (scannerParseDocument .helmRelease "b/y.yaml" c4doc1).map
        ResourceData.file_hash := by
  have h1 : (scannerParseDocument .helmRelease "a/x.yaml" c4doc1).isSome = true := by
    decide
  have h2 : (scannerParseDocument .helmRelease "b/y.yaml" c4doc1).isSome = true := by
    decide
  cases h : scannerParseDocument .helmRelease "a/x.yaml" c4doc1 with
  | none => rw [h] at h1; simp at h1
  | some r =>
      cases h' : scannerParseDocument .helmRelease "b/y.yaml" c4doc1 with
      | none => rw [h'] at h2; simp at h2
      | some r' =>
          simp [C4_per_document_hash.2 _ _ _ _ _ _ _ h h']

/-! ## Claim C9 — one bad file never fails the scan -/

/-- Claim C9: a file whose processing raises any error is skipped and the
scan result is exactly the scan of the remaining files — the other
files' resources are unaffected, and the scan as a whole (a total
function) never fails because of the one bad file. -/
theorem C9_bad_file_skipped (xs ys : List (String × Except Unit (List Value)))
    (fp : String) :
    scanDirectory (xs ++ (fp, Except.error ()) :: ys) = scanDirectory (xs ++ ys) := by
  unfold scanDirectory
  have h : scanCollect (xs ++ (fp, Except.error ()) :: ys) = scanCollect (xs ++ ys) := by
    unfold scanCollect
    simp
  rw [h]

/-! ## Claim C10 — status/deletedAt lifecycle invariant -/

/-- The lifecycle invariant: a row is DELETED exactly when its
`deleted_at` timestamp is set. -/
def statusMatchesDeletedAt (r : KubernetesResourceRow) : Prop :=
  r.status = "DELETED" ↔ r.deleted_at ≠ none

/-- Claim C10: every persistence operation of the scan upholds the
status/deletedAt invariant — creation yields ACTIVE with `deleted_at`
null, resurrection sets ACTIVE with `deleted_at` null, soft-delete sets
DELETED together with a non-null `deleted_at`, and update leaves an
ACTIVE row ACTIVE with `deleted_at` null. -/
theorem C10_lifecycle_invariant :
    (∀ db repo rd sync now,
        (createResource db repo rd sync now).2.1.status = "ACTIVE"
          ∧ (createResource db repo rd sync now).2.1.deleted_at = none
          ∧ statusMatchesDeletedAt (createResource db repo rd sync now).2.1)
      ∧ (∀ db ex rd sync now,
        (resurrectResource db ex rd sync now).2.1.status = "ACTIVE"
          ∧ (resurrectResource db ex rd sync now).2.1.deleted_at = none
          ∧ statusMatchesDeletedAt (resurrectResource db ex rd sync now).2.1)
      ∧ (∀ db ex sync now,
        (deleteResource db ex sync now).2.1.status = "DELETED"
          ∧ (deleteResource db ex sync now).2.1.deleted_at = some now
          ∧ statusMatchesDeletedAt (deleteResource db ex sync now).2.1)
      ∧ (∀ db ex rd sync now, ex.status = "ACTIVE" → ex.deleted_at = none →
        (updateResource db ex rd sync now).2.1.status = "ACTIVE"
          ∧ (updateResource db ex rd sync now).2.1.deleted_at = none
          ∧ statusMatchesDeletedAt (updateResource db ex rd sync now).2.1) := by
  refine ⟨fun db repo rd sync now => ⟨rfl, rfl, ?_⟩,
          fun db ex rd sync now => ⟨rfl, rfl, ?_⟩,
          fun db ex sync now => ⟨rfl, rfl, ?_⟩,
          fun db ex rd sync now h1 h2 => ⟨?_, ?_, ?_⟩⟩
  · simp [statusMatchesDeletedAt, createResource]
  · simp [statusMatchesDeletedAt, resurrectResource]
  · simp [statusMatchesDeletedAt, deleteResource]
  · simpa [updateResource] using h1
  · simpa [updateResource] using h2
  · simp [statusMatchesDeletedAt, updateResource, h1, h2]

/-- A concrete active row used by the C10 witness. -/
def c10row : KubernetesResourceRow where
  id := 0
  repository_id := 0
  api_version := "v1"
  kind := "Pod"
  name := some "a"
  «namespace» := none
  file_path := "f.yaml"
  file_hash := "h"
  version := none
  data := []
  status := "ACTIVE"
  deleted_at := none
  created_at := 0
  updated_at := 0

/-- A concrete scanned resource used by the C10 witness. -/
def c10rd : ResourceData where
  api_version := "v1"
  kind := "Pod"
  file_path := "f.yaml"
  file_hash := "h2"
  name := some "a"

/-- Witness for claim C10 at concrete inputs (discharging the ACTIVE
hypotheses of the update clause). -/
theorem C10_lifecycle_invariant_witness :
    (updateResource {} c10row c10rd 1 2).2.1.status = "ACTIVE"
      ∧ (updateResource {} c10row c10rd 1 2).2.1.deleted_at = none := by
  have h := C10_lifecycle_invariant.2.2.2 {} c10row c10rd 1 2 rfl rfl
  exact ⟨h.1, h.2.1⟩

/-! ## Claim C1 — all-or-nothing commit -/

/-- A failing commit always raises out of the scan body. -/
theorem applyScanCore_failAtCommit (working : DB) (repo : Nat)
    (resources : List ResourceData) (sync now : Nat) :
    applyScanCore working repo resources sync now .failAtCommit = .error () := by
  unfold applyScanCore
  dsimp only
  split
  · rfl
  · rfl

/-- Claim C1: `apply_scan_results` is all-or-nothing.  Whenever the
operation reports failure, the observable (committed) state equals the
state before the scan — no resource mutation and no lifecycle event of
the scan is visible — and a failing commit always reports failure to the
caller. -/
theorem C1_atomic_commit :
    (∀ committed repo resources sync now fail,
        (applyScanResults committed repo resources sync now fail).1 = .error () →
        (applyScanResults committed repo resources sync now fail).2 = committed)
      ∧ (∀ committed repo resources sync now,
        (applyScanResults committed repo resources sync now .failAtCommit).1 =
          .error ()) := by
  constructor
  · intro committed repo resources sync now fail
    unfold applyScanResults
    cases applyScanCore committed repo resources sync now fail with
    | error e => intro _; rfl
    | ok p => intro h; simp at h
  · intro committed repo resources sync now
    unfold applyScanResults
    rw [applyScanCore_failAtCommit]

/-- A concrete scanned resource used by the C1 witness. -/
def c1rd : ResourceData where
  api_version := "v1"
  kind := "Pod"
  file_path := "f.yaml"
  file_hash := "h"
  name := some "a"

/-- Witness for claim C1: a concrete failing scan (commit failure over a
non-empty changeset) reports an error and leaves the store untouched. -/
theorem C1_atomic_commit_witness :
    (applyScanResults {} 7 [c1rd] 1 2 .failAtCommit).1 = .error ()
      ∧ (applyScanResults {} 7 [c1rd] 1 2 .failAtCommit).2 = ({} : DB) := by
  refine ⟨C1_atomic_commit.2 {} 7 [c1rd] 1 2, C1_atomic_commit.1 {} 7 [c1rd] 1 2 _ ?_⟩
  exact C1_atomic_commit.2 {} 7 [c1rd] 1 2

/-! ## Claim C2 — resurrection reuses the durable id -/

/-- The committed state after the first scan (resource present). -/
def c2db1 (repo sync1 t1 : Nat) (r : ResourceData) : DB :=
  (applyScanResults {} repo [r] sync1 t1 .noFail).2

/-- The committed state after the second scan (resource absent, so it
gets soft-deleted). -/
def c2db2 (repo sync1 t1 sync2 t2 : Nat) (r : ResourceData) : DB :=
  (applyScanResults (c2db1 repo sync1 t1 r) repo [] sync2 t2 .noFail).2

/-- The row `_create_resource` inserts during the first scan. -/
def c2row1 (repo t1 : Nat) (r : ResourceData) : KubernetesResourceRow where
  id := 0
  repository_id := repo
  api_version := r.api_version
  kind := r.kind
  name := r.name
  «namespace» := r.namespace
  file_path := r.file_path
  file_hash := r.file_hash
  version := r.version
  data := r.data
  status := "ACTIVE"
  deleted_at := none
  created_at := t1
  updated_at := t1

/-- That row after `_delete_resource` soft-deletes it. -/
def c2rowD (repo t1 t2 : Nat) (r : ResourceData) : KubernetesResourceRow :=
  { c2row1 repo t1 r with
    status := "DELETED", deleted_at := some t2, updated_at := t2 }

/-- That row after `_resurrect_resource` revives it with the re-scanned
body `r2`: same primary key, ACTIVE again. -/
def c2row3 (repo t1 t3 : Nat) (r r2 : ResourceData) : KubernetesResourceRow where
  id := 0
  repository_id := repo
  api_version := r.api_version
  kind := r.kind
  name := r.name
  «namespace» := r.namespace
  file_path := r2.file_path
  file_hash := r2.file_hash
  version := r2.version
  data := r2.data
  status := "ACTIVE"
  deleted_at := none
  created_at := t1
  updated_at := t3

/-- The RESURRECTED lifecycle event of the third scan. -/
def c2evR (repo sync3 t3 : Nat) (r r2 : ResourceData) : KubernetesResourceEvent where
  resource_id := 0
  repository_id := repo
  event_type := "RESURRECTED"
  event_timestamp := t3
  resource_name := r.name
  resource_namespace := r.namespace
  resource_kind := r.kind
  resource_api_version := r.api_version
  file_path := some r2.file_path
  file_hash_before := some r.file_hash
  file_hash_after := some r2.file_hash
  changes_detected := ["resource_resurrected"]
  resource_data := r2.data
  sync_run_id := sync3

/-- A repository's single ACTIVE row is its whole existing-active map. -/
theorem getExistingResources_single_active (row : KubernetesResourceRow)
    (evs : List KubernetesResourceEvent) (n repo : Nat)
    (hrep : row.repository_id = repo) (hst : row.status = "ACTIVE") :
    getExistingResources ⟨[row], evs, n⟩ repo = [(row.resource_key, row)] := by
  simp [getExistingResources, List.filter_cons, hrep, hst, updateAssoc]

/-- A repository whose single row is DELETED has an empty existing-active
map. -/
theorem getExistingResources_single_deleted (row : KubernetesResourceRow)
    (evs : List KubernetesResourceEvent) (n repo : Nat)
    (hst : row.status = "DELETED") :
    getExistingResources ⟨[row], evs, n⟩ repo = [] := by
  have hc : (row.repository_id == repo && (row.status == "ACTIVE")) = false := by
    rw [hst]
    exact Bool.and_false _
  simp [getExistingResources, List.filter_cons, hc]

/-- Claim C2: a resource created by one scan, soft-deleted by the next
scan (its file gone), and re-scanned by a third scan with the same
identity (apiVersion, kind, name, namespace — the body may differ) is
resurrected: the store still holds the one original row under its
original id 0 (ACTIVE again, `deleted_at` cleared, no new id allocated),
and the only lifecycle event the third scan appends is RESURRECTED —
not CREATED. -/
theorem C2_resurrection (repo sync1 t1 sync2 t2 sync3 t3 : Nat) (r r2 : ResourceData)
    (h1 : r2.api_version = r.api_version) (h2 : r2.kind = r.kind)
    (h3 : r2.name = r.name) (h4 : r2.namespace = r.namespace) :
    ∃ row ev sr,
      applyScanResults (c2db2 repo sync1 t1 sync2 t2 r) repo [r2] sync3 t3 .noFail
          = (.ok sr,
             { rows := [row],
               events := (c2db2 repo sync1 t1 sync2 t2 r).events ++ [ev],
               nextId := (c2db1 repo sync1 t1 r).nextId })
        ∧ (c2db1 repo sync1 t1 r).rows.map KubernetesResourceRow.id = [0]
        ∧ row.id = 0 ∧ row.status = "ACTIVE" ∧ row.deleted_at = none
        ∧ ev.event_type = "RESURRECTED" ∧ ev.resource_id = 0
        ∧ sr.created_count = 0 ∧ sr.modified_count = 1 ∧ sr.deleted_count = 0 := by
  have hex1 : getExistingResources (c2db1 repo sync1 t1 r) repo
      = [((c2row1 repo t1 r).resource_key, c2row1 repo t1 r)] := by
    have hdb : c2db1 repo sync1 t1 r
        = ⟨[c2row1 repo t1 r], (c2db1 repo sync1 t1 r).events, 1⟩ := rfl
    rw [hdb]
    exact getExistingResources_single_active _ _ _ _ rfl rfl
  have E2 : c2db2 repo sync1 t1 sync2 t2 r
      = (deleteResource (c2db1 repo sync1 t1 r) (c2row1 repo t1 r) sync2 t2).1 := by
    unfold c2db2 applyScanResults applyScanCore
    dsimp only
    rw [hex1]
    rfl
  have hrowsD : ((deleteResource (c2db1 repo sync1 t1 r) (c2row1 repo t1 r) sync2 t2).1).rows
      = [c2rowD repo t1 t2 r] := rfl
  have hex3 : getExistingResources
      ((deleteResource (c2db1 repo sync1 t1 r) (c2row1 repo t1 r) sync2 t2).1) repo = [] := by
    have hdb : (deleteResource (c2db1 repo sync1 t1 r) (c2row1 repo t1 r) sync2 t2).1
        = ⟨[c2rowD repo t1 t2 r],
           ((deleteResource (c2db1 repo sync1 t1 r) (c2row1 repo t1 r) sync2 t2).1).events,
           1⟩ := rfl
    rw [hdb]
    exact getExistingResources_single_deleted _ _ _ _ rfl
  have hdel : getDeletedResource
      ((deleteResource (c2db1 repo sync1 t1 r) (c2row1 repo t1 r) sync2 t2).1) repo r2
      = some (c2rowD repo t1 t2 r) := by
    unfold getDeletedResource
    rw [hrowsD]
    have hc : ((c2rowD repo t1 t2 r).repository_id == repo
        && (c2rowD repo t1 t2 r).api_version == r2.api_version
        && (c2rowD repo t1 t2 r).kind == r2.kind
        && (c2rowD repo t1 t2 r).name == r2.name
        && (c2rowD repo t1 t2 r).namespace == r2.namespace
        && (c2rowD repo t1 t2 r).status == "DELETED") = true := by
      simp [c2rowD, c2row1, h1, h2, h3, h4]
    simp [List.find?, hc]
  have hsc : scanChange []
      ((deleteResource (c2db1 repo sync1 t1 r) (c2row1 repo t1 r) sync2 t2).1) repo r2
      = some { type := "RESURRECTED", resource_data := some r2,
               existing_resource := some (c2rowD repo t1 t2 r),
               file_hash_before := some r.file_hash,
               file_hash_after := some r2.file_hash } := by
    unfold scanChange
    rw [show (lookupAssoc r2.resource_key
        ([] : List (String × KubernetesResourceRow))) = none from rfl]
    rw [hdel]
    rfl
  have hcs : compareResources [] [r2]
      ((deleteResource (c2db1 repo sync1 t1 r) (c2row1 repo t1 r) sync2 t2).1) repo
      = { created := [],
          modified := [{ type := "RESURRECTED", resource_data := some r2,
                         existing_resource := some (c2rowD repo t1 t2 r),
                         file_hash_before := some r.file_hash,
                         file_hash_after := some r2.file_hash }],
          deleted := [] } := by
    unfold compareResources
    dsimp only
    rw [List.filterMap_cons, hsc]
    rfl
  have E3 : applyScanResults
      ((deleteResource (c2db1 repo sync1 t1 r) (c2row1 repo t1 r) sync2 t2).1)
      repo [r2] sync3 t3 .noFail
      = (.ok ⟨0, 1, 0, 0, sync3⟩,
         { rows := [c2row3 repo t1 t3 r r2],
           events := ((deleteResource (c2db1 repo sync1 t1 r) (c2row1 repo t1 r)
             sync2 t2).1).events ++ [c2evR repo sync3 t3 r r2],
           nextId := (c2db1 repo sync1 t1 r).nextId }) := by
    unfold applyScanResults applyScanCore
    dsimp only
    rw [hex3, hcs]
    rfl
  refine ⟨c2row3 repo t1 t3 r r2, c2evR repo sync3 t3 r r2, ⟨0, 1, 0, 0, sync3⟩,
    ?_, rfl, rfl, rfl, rfl, rfl, rfl, rfl, rfl, rfl⟩
  rw [E2]
  exact E3

/-- The first-scan body of the C2 witness. -/
def c2r : ResourceData where
  api_version := "apps/v1"
  kind := "Deployment"
  file_path := "apps/web/deploy.yaml"
  file_hash := "hash1"
  name := some "web"
  «namespace» := some "prod"

/-- The re-created body of the C2 witness: same identity, different file
content. -/
def c2r2 : ResourceData where
  api_version := "apps/v1"
  kind := "Deployment"
  file_path := "apps/web/deploy-v2.yaml"
  file_hash := "hash2"
  name := some "web"
  «namespace» := some "prod"

/-- Witness for claim C2: the concrete create/delete/recreate round trip
resurrects row 0 with a RESURRECTED event. -/
theorem C2_resurrection_witness :
    ∃ row ev sr,
      applyScanResults (c2db2 9 1 10 2 20 c2r) 9 [c2r2] 3 30 .noFail
          = (.ok sr,
             { rows := [row],
               events := (c2db2 9 1 10 2 20 c2r).events ++ [ev],
               nextId := (c2db1 9 1 10 c2r).nextId })
        ∧ (c2db1 9 1 10 c2r).rows.map KubernetesResourceRow.id = [0]
        ∧ row.id = 0 ∧ row.status = "ACTIVE" ∧ row.deleted_at = none
        ∧ ev.event_type = "RESURRECTED" ∧ ev.resource_id = 0
        ∧ sr.created_count = 0 ∧ sr.modified_count = 1 ∧ sr.deleted_count = 0 :=
  C2_resurrection 9 1 10 2 20 3 30 c2r c2r2 rfl rfl rfl rfl

/-! ## Claim C5 — scanning an unchanged directory twice -/

/-- A HelmRelease document; `c5doc2` is its twin with the same identity
but different spec content, living in another file. -/
def c5doc1 : Doc :=
  [("apiVersion", .str "helm.toolkit.fluxcd.io/v2"), ("kind", .str "HelmRelease"),
   ("metadata", .dict [("name", .str "web"), ("namespace", .str "prod")]),
   ("spec", .dict [("interval", .str "5m")])]

/-- Same identity as `c5doc1`, different body. -/
def c5doc2 : Doc :=
  [("apiVersion", .str "helm.toolkit.fluxcd.io/v2"), ("kind", .str "HelmRelease"),
   ("metadata", .dict [("name", .str "web"), ("namespace", .str "prod")]),
   ("spec", .dict [("interval", .str "10m")])]

/-- A directory with two files whose documents share one identity key. -/
def c5files : List (String × Except Unit (List Value)) :=
  [("apps/a/release.yaml", .ok [.dict c5doc1]),
   ("apps/b/release.yaml", .ok [.dict c5doc2])]

/-- Claim C5 is false as stated: scanning this two-file directory once
from an empty store creates two resources that share one identity key
(the key omits the file path), and the second scan of the unchanged
directory is not empty — the existing-active dict collapses the two rows
into one entry whose hash can match only one of the two scanned
resources, so a MODIFIED change is reported. -/
theorem C5_idempotence_counterexample :
    (scanDirectory c5files).length = 2
      ∧ (compareResources
          (getExistingResources
            ((applyScanResults {} 1 (scanDirectory c5files) 1 10 .noFail).2) 1)
          (scanDirectory c5files)
          ((applyScanResults {} 1 (scanDirectory c5files) 1 10 .noFail).2)
          1).modified.length = 1 := by
  constructor
  · decide
  · decide

/-- The CREATED change `compare_resources` emits for a fresh resource. -/
def c5cre (rd : ResourceData) : ResourceChange :=
  { type := "CREATED", resource_data := some rd, file_hash_after := some rd.file_hash }

/-- Applying the CREATED changes of a first scan, one `_create_resource`
per scanned resource. -/
def c5createFold (repo sync now : Nat) (db : DB) (rs : List ResourceData) : DB :=
  rs.foldl (fun d rd => (createResource d repo rd sync now).1) db

/-- On an empty store, every scanned resource yields a CREATED change. -/
theorem c5_filterMap_create (repo : Nat) (rs : List ResourceData) :
    rs.filterMap (scanChange [] ({} : DB) repo) = rs.map c5cre := by
  induction rs with
  | nil => rfl
  | cons rd l ih =>
      rw [List.filterMap_cons, List.map_cons]
      rw [show scanChange [] ({} : DB) repo rd = some (c5cre rd) from rfl]
      dsimp only
      rw [ih]

/-- All CREATED changes survive the created filter. -/
theorem c5_filter_created (rs : List ResourceData) :
    (rs.map c5cre).filter (fun c => c.type == "CREATED") = rs.map c5cre := by
  induction rs with
  | nil => rfl
  | cons rd l ih =>
      rw [List.map_cons, List.filter_cons,
        if_pos (show ((c5cre rd).type == "CREATED") = true from rfl), ih]

/-- No CREATED change survives the modified filter. -/
theorem c5_filter_modified (rs : List ResourceData) :
    (rs.map c5cre).filter
      (fun c => c.type == "MODIFIED" || c.type == "RESURRECTED") = [] := by
  induction rs with
  | nil => rfl
  | cons rd l ih =>
      rw [List.map_cons, List.filter_cons,
        show ((c5cre rd).type == "MODIFIED"
          || (c5cre rd).type == "RESURRECTED") = false from rfl,
        if_neg Bool.false_ne_true, ih]

/-- On an empty store, `compare_resources` classifies every scanned
resource as CREATED. -/
theorem compareResources_empty (repo : Nat) (rs : List ResourceData) :
    compareResources [] rs {} repo
      = { created := rs.map c5cre, modified := [], deleted := [] } := by
  unfold compareResources
  dsimp only
  rw [c5_filterMap_create, c5_filter_created, c5_filter_modified]
  rfl

/-- Running only CREATED changes never raises and is the create fold. -/
theorem runOps_created (repo sync now : Nat) (rs : List ResourceData) :
    ∀ (i : Nat) (db : DB),
      runOps repo sync now none (rs.map c5cre) i db
        = .ok (c5createFold repo sync now db rs) := by
  induction rs with
  | nil => intro i db; rfl
  | cons rd l ih =>
      intro i db
      exact ih (i + 1) ((createResource db repo rd sync now).1)

/-- The rows a first scan leaves behind: one fresh ACTIVE row per scanned
resource, carrying its key and hash. -/
theorem c5createFold_rows (repo sync now : Nat) (rs : List ResourceData) :
    ∀ db : DB, ∃ extra,
      (c5createFold repo sync now db rs).rows = db.rows ++ extra
        ∧ List.Forall₂ (fun (row : KubernetesResourceRow) (rd : ResourceData) =>
            row.resource_key = rd.resource_key ∧ row.file_hash = rd.file_hash
              ∧ row.status = "ACTIVE" ∧ row.repository_id = repo) extra rs := by
  induction rs with
  | nil => intro db; exact ⟨[], by simp [c5createFold], .nil⟩
  | cons rd l ih =>
      intro db
      obtain ⟨extra, he, hf⟩ := ih ((createResource db repo rd sync now).1)
      refine ⟨(createResource db repo rd sync now).2.1 :: extra, ?_, ?_⟩
      · rw [show c5createFold repo sync now db (rd :: l)
            = c5createFold repo sync now ((createResource db repo rd sync now).1) l from rfl,
          he]
        rw [show ((createResource db repo rd sync now).1).rows
            = db.rows ++ [(createResource db repo rd sync now).2.1] from rfl]
        rw [List.append_assoc]
        rfl
      · exact .cons ⟨rfl, rfl, rfl, rfl⟩ hf

/-- Keys transfer along the row/resource pairing. -/
theorem c5_keys_eq {repo : Nat} {extra : List KubernetesResourceRow}
    {rs : List ResourceData}
    (hf : List.Forall₂ (fun (row : KubernetesResourceRow) (rd : ResourceData) =>
        row.resource_key = rd.resource_key ∧ row.file_hash = rd.file_hash
          ∧ row.status = "ACTIVE" ∧ row.repository_id = repo) extra rs) :
    extra.map KubernetesResourceRow.resource_key
      = rs.map ResourceData.resource_key := by
  induction hf with
  | nil => rfl
  | cons h _ ih => simp only [List.map_cons, ih, h.1]

/-- Every row of the pairing passes the ACTIVE-for-this-repo filter. -/
theorem c5_filter_active {repo : Nat} {extra : List KubernetesResourceRow}
    {rs : List ResourceData}
    (hf : List.Forall₂ (fun (row : KubernetesResourceRow) (rd : ResourceData) =>
        row.resource_key = rd.resource_key ∧ row.file_hash = rd.file_hash
          ∧ row.status = "ACTIVE" ∧ row.repository_id = repo) extra rs) :
    extra.filter (fun r => r.repository_id == repo && (r.status == "ACTIVE"))
      = extra := by
  induction hf with
  | nil => rfl
  | cons h _ ih =>
      rw [List.filter_cons, if_pos, ih]
      rw [h.2.2.1, h.2.2.2]
      simp

/-- Each scanned resource has a paired row. -/
theorem c5_paired_row {repo : Nat} {extra : List KubernetesResourceRow}
    {rs : List ResourceData}
    (hf : List.Forall₂ (fun (row : KubernetesResourceRow) (rd : ResourceData) =>
        row.resource_key = rd.resource_key ∧ row.file_hash = rd.file_hash
          ∧ row.status = "ACTIVE" ∧ row.repository_id = repo) extra rs)
    (rd : ResourceData) (hrd : rd ∈ rs) :
    ∃ row ∈ extra, row.resource_key = rd.resource_key
      ∧ row.file_hash = rd.file_hash := by
  induction hf with
  | nil => cases hrd
  | cons h _ ih =>
      rcases List.mem_cons.mp hrd with heq | hm
      · subst heq
        exact ⟨_, List.mem_cons_self _ _, h.1, h.2.1⟩
      · obtain ⟨row, hmem, hk, hh⟩ := ih hm
        exact ⟨row, List.mem_cons_of_mem _ hmem, hk, hh⟩

/-- Lookup after a dict write: the written key reads back the new value,
other keys are untouched. -/
theorem lookupAssoc_updateAssoc {α β : Type} [BEq α] [LawfulBEq α] (k k' : α)
    (v : β) (m : List (α × β)) :
    lookupAssoc k (updateAssoc k' v m) =
      if k' == k then some v else lookupAssoc k m := by
  induction m with
  | nil => simp [updateAssoc, lookupAssoc]
  | cons e rest ih =>
      obtain ⟨ek, ev⟩ := e
      by_cases he : ek = k'
      · subst he
        by_cases hk : ek = k
        · subst hk
          simp [updateAssoc, lookupAssoc]
        · simp [updateAssoc, lookupAssoc, beq_iff_eq, hk]
      · by_cases hk2 : ek = k
        · subst hk2
          have hkk : ¬k' = ek := fun hh => he hh.symm
          simp [updateAssoc, lookupAssoc, beq_iff_eq, he, hkk]
        · simp [updateAssoc, lookupAssoc, beq_iff_eq, he, hk2, ih]

/-- An entry of a written dict is the written pair or an original entry. -/
theorem mem_updateAssoc {α β : Type} [BEq α] (k : α) (v : β)
    (m : List (α × β)) (e : α × β) (he : e ∈ updateAssoc k v m) :
    e = (k, v) ∨ e ∈ m := by
  induction m with
  | nil =>
      simp only [updateAssoc, List.mem_singleton] at he
      exact Or.inl he
  | cons p rest ih =>
      obtain ⟨pk, pv⟩ := p
      simp only [updateAssoc] at he
      split at he
      · rcases List.mem_cons.mp he with h | h
        · exact Or.inl h
        · exact Or.inr (List.mem_cons_of_mem _ h)
      · rcases List.mem_cons.mp he with h | h
        · exact Or.inr (h ▸ List.mem_cons_self _ _)
        · rcases ih h with h2 | h2
          · exact Or.inl h2
          · exact Or.inr (List.mem_cons_of_mem _ h2)

/-- Folding dict writes for keys other than `k` leaves `k`'s entry
alone. -/
theorem lookupAssoc_foldUpdate_absent {α β : Type} [BEq α] [LawfulBEq α]
    (key : β → α) (k : α) (l : List β) :
    ∀ init : List (α × β), k ∉ l.map key →
      lookupAssoc k (l.foldl (fun m b => updateAssoc (key b) b m) init)
        = lookupAssoc k init := by
  induction l with
  | nil => intro init _; rfl
  | cons b l ih =>
      intro init hk
      rw [List.map_cons] at hk
      have h1 : ¬ k = key b := fun h => hk (List.mem_cons.mpr (Or.inl h))
      have h2 : k ∉ l.map key := fun h => hk (List.mem_cons.mpr (Or.inr h))
      show lookupAssoc k
          (l.foldl (fun m b => updateAssoc (key b) b m) (updateAssoc (key b) b init))
        = lookupAssoc k init
      rw [ih (updateAssoc (key b) b init) h2, lookupAssoc_updateAssoc,
        if_neg (fun h => h1 (eq_of_beq h).symm)]

/-- Folding dict writes over elements with pairwise-distinct keys: each
element reads back under its own key. -/
theorem lookupAssoc_foldUpdate_mem {α β : Type} [BEq α] [LawfulBEq α]
    (key : β → α) (l : List β) (hnd : (l.map key).Nodup) (b : β) (hb : b ∈ l) :
    ∀ init : List (α × β),
      lookupAssoc (key b) (l.foldl (fun m x => updateAssoc (key x) x m) init)
        = some b := by
  induction l with
  | nil => cases hb
  | cons a l ih =>
      intro init
      rw [List.map_cons, List.nodup_cons] at hnd
      rcases List.mem_cons.mp hb with heq | hm
      · subst heq
        show lookupAssoc (key b)
            (l.foldl (fun m x => updateAssoc (key x) x m) (updateAssoc (key b) b init))
          = some b
        rw [lookupAssoc_foldUpdate_absent key (key b) l _ hnd.1,
          lookupAssoc_updateAssoc, if_pos (beq_self_eq_true _)]
      · exact ih hnd.2 hm (updateAssoc (key a) a init)

/-- Every entry of the folded dict carries one of the written keys (or
was there at the start). -/
theorem mem_foldUpdate {α β : Type} [BEq α] (key : β → α) (l : List β) :
    ∀ (init : List (α × β)) (e : α × β),
      e ∈ l.foldl (fun m x => updateAssoc (key x) x m) init →
        e.1 ∈ l.map key ∨ e ∈ init := by
  induction l with
  | nil => intro init e he; exact Or.inr he
  | cons a l ih =>
      intro init e he
      rcases ih (updateAssoc (key a) a init) e he with h | h
      · exact Or.inl (List.mem_cons_of_mem _ h)
      · rcases mem_updateAssoc (key a) a init e h with h2 | h2
        · left
          rw [h2]
          exact List.mem_cons_self _ _
        · exact Or.inr h2

/-- Claim C5, amended: provided the scanned resources carry pairwise
distinct identity keys (without that the claim is false — see the
counterexample), scanning them a second time after a committed first scan
from an empty store yields a ChangeSet whose created, modified and
deleted lists are all empty, and the second `apply_scan_results` reports
created:0, modified:0, deleted:0 and leaves the store untouched. -/
theorem C5_second_scan_empty (repo sync1 t1 sync2 t2 : Nat) (rs : List ResourceData)
    (hnd : (rs.map ResourceData.resource_key).Nodup) :
    compareResources
        (getExistingResources ((applyScanResults {} repo rs sync1 t1 .noFail).2) repo)
        rs ((applyScanResults {} repo rs sync1 t1 .noFail).2) repo
      = { created := [], modified := [], deleted := [] }
    ∧ applyScanResults ((applyScanResults {} repo rs sync1 t1 .noFail).2) repo rs
        sync2 t2 .noFail
      = (.ok { created_count := 0, modified_count := 0, deleted_count := 0,
               total_resources := (getExistingResources
                 ((applyScanResults {} repo rs sync1 t1 .noFail).2) repo).length,
               sync_run_id := sync2 },
         (applyScanResults {} repo rs sync1 t1 .noFail).2) := by
  have E1 : (applyScanResults {} repo rs sync1 t1 .noFail).2
      = c5createFold repo sync1 t1 {} rs := by
    unfold applyScanResults applyScanCore
    dsimp only
    rw [show getExistingResources {} repo = [] from rfl, compareResources_empty]
    dsimp only
    rw [show (rs.map c5cre ++ [] ++ [] : List ResourceChange) = rs.map c5cre from by simp,
      show failIndex .noFail = none from rfl, runOps_created]
    rfl
  rw [E1]
  obtain ⟨extra, hrows, hf⟩ := c5createFold_rows repo sync1 t1 rs ({} : DB)
  have hrows2 : (c5createFold repo sync1 t1 {} rs).rows = extra := by
    rw [hrows]; rfl
  have hex : getExistingResources (c5createFold repo sync1 t1 {} rs) repo
      = extra.foldl (fun m row => updateAssoc row.resource_key row m) [] := by
    unfold getExistingResources
    rw [hrows2, c5_filter_active hf]
  have hkeys := c5_keys_eq hf
  have hnd2 : (extra.map KubernetesResourceRow.resource_key).Nodup := by
    rw [hkeys]; exact hnd
  have hnone : ∀ rd ∈ rs, scanChange
      (extra.foldl (fun m row => updateAssoc row.resource_key row m) [])
      (c5createFold repo sync1 t1 {} rs) repo rd = none := by
    intro rd hrd
    obtain ⟨row, hrow, hk, hh⟩ := c5_paired_row hf rd hrd
    have hl : lookupAssoc rd.resource_key
        (extra.foldl (fun m row => updateAssoc row.resource_key row m) [])
        = some row := by
      rw [← hk]
      exact lookupAssoc_foldUpdate_mem KubernetesResourceRow.resource_key extra
        hnd2 row hrow []
    unfold scanChange
    rw [hl]
    dsimp only
    rw [hh]
    simp
  have hchanges : rs.filterMap (scanChange
      (extra.foldl (fun m row => updateAssoc row.resource_key row m) [])
      (c5createFold repo sync1 t1 {} rs) repo) = [] :=
    List.filterMap_eq_nil.mpr hnone
  have hdel : ∀ e ∈ extra.foldl (fun m row => updateAssoc row.resource_key row m) [],
      (if (rs.map ResourceData.resource_key).contains e.1 then none
       else some { type := "DELETED", existing_resource := some e.2,
                   file_hash_before := some e.2.file_hash })
        = (none : Option ResourceChange) := by
    intro e he
    rcases mem_foldUpdate KubernetesResourceRow.resource_key extra [] e he with h | h
    · have hm : e.1 ∈ rs.map ResourceData.resource_key := hkeys ▸ h
      exact if_pos (List.elem_eq_true_of_mem hm)
    · cases h
  have hcs : compareResources
      (getExistingResources (c5createFold repo sync1 t1 {} rs) repo)
      rs (c5createFold repo sync1 t1 {} rs) repo
      = { created := [], modified := [], deleted := [] } := by
    unfold compareResources
    dsimp only
    rw [hex, hchanges]
    refine congrArg₂ (ChangeSet.mk []) rfl ?_
    exact List.filterMap_eq_nil.mpr hdel
  refine ⟨hcs, ?_⟩
  unfold applyScanResults applyScanCore
  dsimp only
  rw [hcs]
  dsimp only
  rw [show failIndex .noFail = none from rfl]
  rw [show runOps repo sync2 t2 none
      (([] : List ResourceChange) ++ [] ++ []) 0 (c5createFold repo sync1 t1 {} rs)
      = .ok (c5createFold repo sync1 t1 {} rs) from rfl]
  rfl

/-- A first scanned resource for the C5 witness. -/
def c5wa : ResourceData where
  api_version := "apps/v1"
  kind := "Deployment"
  file_path := "a.yaml"
  file_hash := "ha"
  name := some "a"

/-- A second scanned resource for the C5 witness, with a distinct key. -/
def c5wb : ResourceData where
  api_version := "apps/v1"
  kind := "Deployment"
  file_path := "b.yaml"
  file_hash := "hb"
  name := some "b"

/-- Witness for the amended claim C5: two distinct-key resources scanned
twice from an empty store leave the second scan empty. -/
theorem C5_second_scan_empty_witness :
    compareResources
        (getExistingResources ((applyScanResults {} 3 [c5wa, c5wb] 1 10 .noFail).2) 3)
        [c5wa, c5wb] ((applyScanResults {} 3 [c5wa, c5wb] 1 10 .noFail).2) 3
      = { created := [], modified := [], deleted := [] }
    ∧ applyScanResults ((applyScanResults {} 3 [c5wa, c5wb] 1 10 .noFail).2) 3
        [c5wa, c5wb] 2 20 .noFail
      = (.ok { created_count := 0, modified_count := 0, deleted_count := 0,
               total_resources := (getExistingResources
                 ((applyScanResults {} 3 [c5wa, c5wb] 1 10 .noFail).2) 3).length,
               sync_run_id := 2 },
         (applyScanResults {} 3 [c5wa, c5wb] 1 10 .noFail).2) :=
  C5_second_scan_empty 3 1 10 2 20 [c5wa, c5wb] (by decide)

/-! ## Claim C6 — chartRef version propagation -/

/-- After folding the `oci_versions` loop over `rs`, the entry for name
`n` holds version `v`, provided some OCIRepository named `n` occurs in
`rs` (or the entry was already `v`) and every OCIRepository named `n`
carries version `v`. -/
theorem ociVersions_fold_lookup (n : String) (v : Option String)
    (rs : List ResourceData) (m : List (Option String × Option String))
    (huniq : ∀ r' ∈ rs, ociCond r' = true → r'.name = some n → r'.version = v)
    (hinv : ∀ val, lookupAssoc (some n) m = some val → val = v)
    (hex : (∃ r' ∈ rs, ociCond r' = true ∧ r'.name = some n)
        ∨ lookupAssoc (some n) m = some v) :
    lookupAssoc (some n)
        (rs.foldl (fun m r => if ociCond r then updateAssoc r.name r.version m else m) m)
      = some v := by
  induction rs generalizing m with
  | nil =>
      rcases hex with ⟨r', hr', _⟩ | hm
      · simp at hr'
      · simpa using hm
  | cons r rest ih =>
      rw [List.foldl_cons]
      by_cases hc : ociCond r = true
      · simp only [hc, if_pos]
        by_cases hn : r.name = some n
        · have hv : r.version = v := huniq r (by simp) hc hn
          have hl : lookupAssoc (some n) (updateAssoc r.name r.version m) = some v := by
            rw [lookupAssoc_updateAssoc]
            simp [hn, hv]
          exact ih _ (fun r' hr' => huniq r' (by simp [hr']))
            (fun val hval => by rw [hl] at hval; exact (Option.some.inj hval).symm)
            (Or.inr hl)
        · have hl : lookupAssoc (some n) (updateAssoc r.name r.version m) =
              lookupAssoc (some n) m := by
            rw [lookupAssoc_updateAssoc]
            have : (r.name == some n) = false := by
              cases hrn : r.name <;> simp_all
            simp [this]
          refine ih _ (fun r' hr' => huniq r' (by simp [hr']))
            (fun val hval => hinv val (hl ▸ hval)) ?_
          rcases hex with ⟨r', hr', hc', hn'⟩ | hm
          · rcases List.mem_cons.mp hr' with rfl | hr'
            · exact absurd hn' hn
            · exact Or.inl ⟨r', hr', hc', hn'⟩
          · exact Or.inr (hl ▸ hm)
      · simp only [hc, if_neg, Bool.false_eq_true, if_false]
        refine ih _ (fun r' hr' => huniq r' (by simp [hr'])) hinv ?_
        rcases hex with ⟨r', hr', hc', hn'⟩ | hm
        · rcases List.mem_cons.mp hr' with rfl | hr'
          · exact absurd hc' hc
          · exact Or.inl ⟨r', hr', hc', hn'⟩
        · exact Or.inr hm

/-- The entry of `oci_versions` for name `n`, under agreement of all
OCIRepositories named `n`. -/
theorem ociVersions_lookup (n : String) (o : ResourceData) (rs : List ResourceData)
    (ho : o ∈ rs) (hc : ociCond o = true) (hn : o.name = some n)
    (huniq : ∀ r' ∈ rs, ociCond r' = true → r'.name = some n → r'.version = o.version) :
    lookupAssoc (some n) (ociVersions rs) = some o.version := by
  unfold ociVersions
  exact ociVersions_fold_lookup n o.version rs [] huniq
    (by intro val h; simp [lookupAssoc] at h)
    (Or.inl ⟨o, ho, hc, hn⟩)

/-- The namespace step touches only the namespace field. -/
theorem inheritNamespace_fields (p : List (List String × Option String))
    (r : ResourceData) :
    (inheritNamespace p r).version = r.version
      ∧ (inheritNamespace p r).api_version = r.api_version
      ∧ (inheritNamespace p r).kind = r.kind
      ∧ (inheritNamespace p r).data = r.data := by
  unfold inheritNamespace
  split
  · split <;> simp
  · simp

/-- Claim C6: a HelmRelease using the chartRef pattern (no literal
version of its own, `chartRef.name = n` in its data) resolves, after
post-processing, to the version of the OCIRepository named `n` present
in the same scan (unambiguous when all OCIRepositories named `n` agree);
and an OCIRepository's version is exactly its `spec.ref.tag`. -/
theorem C6_version_propagation (rs : List ResourceData) (i : Nat)
    (h o : ResourceData) (n : String)
    (hi : rs.get? i = some h)
    (hhapi : strStartsWith h.api_version "helm.toolkit.fluxcd.io" = true)
    (hhkind : h.kind = "HelmRelease")
    (hhver : h.version = none)
    (hcr : chartRefName h.data = some n)
    (ho : o ∈ rs) (hoc : ociCond o = true) (hon : o.name = some n)
    (huniq : ∀ r' ∈ rs, ociCond r' = true → r'.name = some n →
        r'.version = o.version) :
    (∃ h2, (postProcess rs).get? i = some h2 ∧ h2.version = o.version)
      ∧ (∀ fp d r, scannerParseDocument .ociRepository fp d = some r →
          r.version = chainGetStr d ["spec", "ref", "tag"]) := by
  constructor
  · refine ⟨postStep (pathNsMap rs) (ociVersions rs) h, ?_, ?_⟩
    · unfold postProcess
      simp [hi]
      exact ⟨h, by simpa using hi, rfl⟩
    · unfold postStep
      obtain ⟨hv, ha, hk, hd⟩ := inheritNamespace_fields (pathNsMap rs) h
      unfold propagateVersion
      have hdata : h.data ≠ [] := by
        intro hnil
        rw [hnil] at hcr
        simp [chartRefName, lookupEntry] at hcr
      have hcond : ((inheritNamespace (pathNsMap rs) h).version.isNone
          && strStartsWith (inheritNamespace (pathNsMap rs) h).api_version
              "helm.toolkit.fluxcd.io"
          && (inheritNamespace (pathNsMap rs) h).kind == "HelmRelease"
          && !(inheritNamespace (pathNsMap rs) h).data.isEmpty) = true := by
        rw [hv, ha, hk, hd, hhver, hhkind]
        simp [hhapi, hdata]
      rw [if_pos hcond]
      simp only [hd, hcr]
      rw [ociVersions_lookup n o rs ho hoc hon huniq]
      rfl
  · intro fp d r hr
    unfold scannerParseDocument at hr
    cases hb : baseParseDocument .ociRepository fp d with
    | none => rw [hb] at hr; simp at hr
    | some b =>
        rw [hb] at hr
        simp at hr
        rw [← hr]

/-- The chartRef-pattern HelmRelease of the C6 witness scenario. -/
def c6helm : ResourceData where
  api_version := "helm.toolkit.fluxcd.io/v2"
  kind := "HelmRelease"
  file_path := "apps/grafana/hr.yaml"
  file_hash := "h1"
  name := some "grafana"
  data := [("chartRef", .dict [("kind", .str "OCIRepository"), ("name", .str "grafana")])]

/-- The OCIRepository of the C6 witness scenario. -/
def c6oci : ResourceData where
  api_version := "source.toolkit.fluxcd.io/v1"
  kind := "OCIRepository"
  file_path := "apps/grafana/oci.yaml"
  file_hash := "h2"
  name := some "grafana"
  version := some "9.2.1"

/-- Witness for claim C6: the `grafana` HelmRelease resolves to the
`grafana` OCIRepository's version `9.2.1`. -/
theorem C6_version_propagation_witness :
    ∃ h2, (postProcess [c6helm, c6oci]).get? 0 = some h2
      ∧ h2.version = some "9.2.1" := by
  have huniq : ∀ r' ∈ [c6helm, c6oci], ociCond r' = true →
      r'.name = some "grafana" → r'.version = c6oci.version := by
    intro r' hr' hc hn
    rcases List.mem_cons.mp hr' with rfl | hr'
    · exact absurd hc (by decide)
    · rcases List.mem_cons.mp hr' with rfl | hr'
      · rfl
      · simp at hr'
  have h := (C6_version_propagation [c6helm, c6oci] 0 c6helm c6oci "grafana"
    rfl (by decide) rfl rfl (by decide) (by simp) (by decide) rfl huniq).1
  obtain ⟨h2, hget, hver⟩ := h
  exact ⟨h2, hget, by rw [hver]; rfl⟩

/-! ## Claim C7 — targetNamespace inheritance

Two independent deviations from the claim: (a) the Kustomization scanner
returns empty `data`, so real scans never populate `path_ns_map` and no
inheritance happens at all; (b) even over hand-populated data, the first
matching map entry wins (a `break` on the first enclosing directory in
insertion order), not the nearest/deepest one. -/

/-- The refuting scan: a Kustomization with `spec.targetNamespace: ns1`
and, nested under its directory, a HelmRelease without a namespace. -/
def c7kustDoc : Doc :=
  [("apiVersion", .str "kustomize.toolkit.fluxcd.io/v1"), ("kind", .str "Kustomization"),
   ("metadata", .dict [("name", .str "apps")]),
   ("spec", .dict [("targetNamespace", .str "ns1")])]

/-- The namespace-less resource of the refuting scan. -/
def c7helmDoc : Doc :=
  [("apiVersion", .str "helm.toolkit.fluxcd.io/v2"), ("kind", .str "HelmRelease"),
   ("metadata", .dict [("name", .str "app")]),
   ("spec", .dict [("interval", .str "1h")])]

/-- The directory listing of the refuting scan. -/
def c7files : List (String × Except Unit (List Value)) :=
  [("apps/ks.yaml", .ok [.dict c7kustDoc]),
   ("apps/web/app.yaml", .ok [.dict c7helmDoc])]

/-- Claim C7 is false as stated: the scanned Kustomization carries
`spec.targetNamespace = ns1`, the HelmRelease lives under its directory
with no explicit namespace, yet after scanning its namespace is still
`none` — nothing inherited `ns1`. -/
theorem C7_inheritance_counterexample :
    chainGetStr c7kustDoc ["spec", "targetNamespace"] = some "ns1"
      ∧ (scanDirectory c7files).map (fun r => (r.kind, r.namespace)) =
        [("Kustomization", none), ("HelmRelease", none)] := by
  constructor
  · decide
  · decide

/-- Inversion of the shared base parse: the resulting kind is the
document's `kind` string and the data is the scanner's
`extract_additional_data`. -/
theorem baseParseDocument_inv (sk : ScannerKind) (fp : String) (d : Doc)
    (b : ResourceData) (hb : baseParseDocument sk fp d = some b) :
    getStr d "kind" = some b.kind ∧ b.data = extractAdditionalData sk d := by
  unfold baseParseDocument at hb
  cases h1 : getStr d "apiVersion" with
  | none => rw [h1] at hb; simp at hb
  | some api =>
  cases h2 : getStr d "kind" with
  | none => rw [h1, h2] at hb; simp at hb
  | some kd =>
  rw [h1, h2] at hb
  simp only at hb
  split at hb
  · simp at hb
  · cases h3 : metaField d "name" with
    | none => rw [h3] at hb; simp at hb
    | some nm =>
    cases h4 : metaField d "namespace" with
    | none => rw [h3, h4] at hb; simp at hb
    | some ns =>
    rw [h3, h4] at hb
    simp only [Option.some.injEq] at hb
    subst hb
    exact ⟨rfl, rfl⟩

/-- Inversion of a concrete scanner's parse: it is the base parse with
only the `version` field possibly changed. -/
theorem scannerParseDocument_inv (sk : ScannerKind) (fp : String) (d : Doc)
    (r : ResourceData) (h : scannerParseDocument sk fp d = some r) :
    ∃ b, baseParseDocument sk fp d = some b ∧ r.kind = b.kind ∧ r.data = b.data := by
  unfold scannerParseDocument at h
  cases hb : baseParseDocument sk fp d with
  | none => rw [hb] at h; simp at h
  | some b =>
      rw [hb] at h
      simp at h
      refine ⟨b, rfl, ?_, ?_⟩ <;> cases sk <;> rw [← h] <;> rfl

/-- Inversion of the Flux dispatcher: some sub-scanner matched the
document's apiVersion/kind and produced the resource. -/
theorem fluxParseDocument_inv (fp : String) (d : Doc) (r : ResourceData)
    (h : fluxParseDocument fp d = some r) :
    ∃ api kd sk, getStr d "apiVersion" = some api ∧ getStr d "kind" = some kd
      ∧ fluxSupport api kd = some sk ∧ scannerParseDocument sk fp d = some r := by
  unfold fluxParseDocument at h
  cases h1 : getStr d "apiVersion" with
  | none => rw [h1] at h; simp at h
  | some api =>
  cases h2 : getStr d "kind" with
  | none => rw [h1, h2] at h; simp at h
  | some kd =>
  rw [h1, h2] at h
  simp only at h
  split at h
  · simp at h
  · cases hsk : fluxSupport api kd with
    | none => rw [hsk] at h; simp at h
    | some sk =>
        rw [hsk] at h
        exact ⟨api, kd, sk, rfl, rfl, hsk, h⟩

/-- Only the Kustomization scanner matches kind `Kustomization`. -/
theorem fluxSupport_kustomization (api : String) (sk : ScannerKind)
    (h : fluxSupport api "Kustomization" = some sk) : sk = .kustomization := by
  unfold fluxSupport scannerList at h
  simp only [List.find?, isSupportedBy, resourceTypes, List.any_cons,
    List.any_nil] at h
  by_cases hp : strStartsWith api "kustomize.toolkit.fluxcd.io" = true <;>
    simp [hp] at h <;> simp [h]

/-- Inversion of `RepositoryScanner.process_document`: a produced
resource came from a Flux parse of the document's dict. -/
theorem processDocument_inv (fp : String) (dv : Value) (i : Nat)
    (r : ResourceData) (h : processDocument fp dv i = some r) :
    ∃ d fi, dv = .dict d ∧ fluxParseDocument fi d = some r := by
  unfold processDocument at h
  cases dv with
  | dict d =>
      simp only at h
      cases h1 : getStr d "apiVersion" with
      | none => rw [h1] at h; simp at h
      | some api =>
      cases h2 : getStr d "kind" with
      | none => rw [h1, h2] at h; simp at h
      | some kd =>
      rw [h1, h2] at h
      simp only at h
      split at h
      · simp at h
      · split at h
        · simp at h
        · cases hf : fluxParseDocument
              (if i > 0 then fp ++ "#" ++ toString i else fp) d with
          | none => rw [hf] at h; simp at h
          | some rd =>
              rw [hf] at h
              simp only [Option.some_bind] at h
              split at h
              · have hrd : rd = r := by simpa using h
                exact ⟨d, _, rfl, hrd ▸ hf⟩
              · simp at h
  | str s => exact Option.noConfusion h
  | int n => exact Option.noConfusion h
  | bool b => exact Option.noConfusion h
  | null => exact Option.noConfusion h
  | list l => exact Option.noConfusion h

/-- A parsed Kustomization always carries empty `data`
(`KustomizationResourceScanner.extract_additional_data` returns `{}`). -/
theorem processDocument_kustomization_data (fp : String) (dv : Value) (i : Nat)
    (r : ResourceData) (h : processDocument fp dv i = some r)
    (hk : r.kind = "Kustomization") : r.data = [] := by
  obtain ⟨d, fi, rfl, hf⟩ := processDocument_inv fp dv i r h
  obtain ⟨api, kd, sk, h1, h2, hsk, hp⟩ := fluxParseDocument_inv fi d r hf
  obtain ⟨b, hb, hkind, hdata⟩ := scannerParseDocument_inv sk fi d r hp
  obtain ⟨h2', hbd⟩ := baseParseDocument_inv sk fi d b hb
  have hkd : kd = "Kustomization" := by
    rw [h2] at h2'
    exact (Option.some.inj h2').trans (hkind.symm.trans hk)
  rw [hkd] at hsk
  have := fluxSupport_kustomization api sk hsk
  subst this
  rw [hdata, hbd]
  rfl

/-- Resources of `scanCollect` all come from `processDocument`. -/
theorem mem_scanCollect (files : List (String × Except Unit (List Value)))
    (r : ResourceData) (h : r ∈ scanCollect files) :
    ∃ fp dv i, processDocument fp dv i = some r := by
  unfold scanCollect at h
  obtain ⟨fp, _, hmem⟩ := List.mem_flatMap.mp h
  rcases hout : fp.2 with e | docs
  · rw [hout] at hmem
    simp at hmem
  · rw [hout] at hmem
    unfold processYamlFileDocs at hmem
    obtain ⟨p, _, hp⟩ := List.mem_filterMap.mp hmem
    exact ⟨fp.1, p.2, p.1, hp⟩

/-- The `path_ns_map` fold ignores every resource failing `kustCond`. -/
theorem pathNsMap_fold_skip (rs : List ResourceData)
    (m : List (List String × Option String))
    (h : ∀ r ∈ rs, kustCond r = false) :
    rs.foldl
        (fun m r =>
          if kustCond r then
            updateAssoc (parentParts r.file_path) (getStr r.data "targetNamespace") m
          else m) m = m := by
  induction rs generalizing m with
  | nil => rfl
  | cons r rest ih =>
      rw [List.foldl_cons, if_neg (by simp [h r (by simp)])]
      exact ih m fun r' hr' => h r' (by simp [hr'])

/-- Every resource a real scan collects fails `kustCond`: Kustomizations
carry empty data, other kinds fail the kind test. -/
theorem scanCollect_kustCond (files : List (String × Except Unit (List Value)))
    (r : ResourceData) (h : r ∈ scanCollect files) : kustCond r = false := by
  obtain ⟨fp, dv, i, hp⟩ := mem_scanCollect files r h
  by_cases hk : r.kind = "Kustomization"
  · have hdata := processDocument_kustomization_data fp dv i r hp hk
    unfold kustCond
    rw [hdata]
    simp
  · unfold kustCond
    have : (r.kind == "Kustomization") = false := by
      simp [hk]
    simp [this]

/-- With an empty `path_ns_map` (the real-scan case) the namespace step
is the identity. -/
theorem inheritNamespace_nil (r : ResourceData) : inheritNamespace [] r = r := by
  unfold inheritNamespace
  split <;> rfl

/-- The version step never touches the namespace. -/
theorem propagateVersion_namespace (oci : List (Option String × Option String))
    (r : ResourceData) : (propagateVersion oci r).namespace = r.namespace := by
  unfold propagateVersion
  split <;> rfl

/-- Writing a fresh key appends the entry. -/
theorem updateAssoc_of_not_mem {α β : Type} [BEq α] (k : α) (v : β)
    (m : List (α × β)) (h : ∀ e ∈ m, (e.1 == k) = false) :
    updateAssoc k v m = m ++ [(k, v)] := by
  induction m with
  | nil => rfl
  | cons e rest ih =>
      rw [updateAssoc, if_neg (by simp [h e (by simp)]),
        ih fun e' he' => h e' (by simp [he'])]
      rfl

/-- Under pairwise-distinct Kustomization directories the `path_ns_map`
fold appends its entries in list order. -/
theorem pathNsMap_fold_eq (rs : List ResourceData)
    (m : List (List String × Option String))
    (hdisj : ∀ e ∈ m, ∀ k ∈ rs.filter kustCond,
      (e.1 == parentParts k.file_path) = false)
    (hnodup : ((rs.filter kustCond).map fun k => parentParts k.file_path).Nodup) :
    rs.foldl
        (fun m r =>
          if kustCond r then
            updateAssoc (parentParts r.file_path) (getStr r.data "targetNamespace") m
          else m) m =
      m ++ (rs.filter kustCond).map
        (fun k => (parentParts k.file_path, getStr k.data "targetNamespace")) := by
  induction rs generalizing m with
  | nil => simp
  | cons r rest ih =>
      rw [List.foldl_cons]
      by_cases hc : kustCond r = true
      · have hfil : (r :: rest).filter kustCond = r :: rest.filter kustCond := by
          simp [List.filter_cons, hc]
        rw [hfil] at hnodup hdisj
        rw [if_pos hc]
        have hupd : updateAssoc (parentParts r.file_path)
            (getStr r.data "targetNamespace") m =
            m ++ [(parentParts r.file_path, getStr r.data "targetNamespace")] :=
          updateAssoc_of_not_mem _ _ m fun e he => hdisj e he r (by simp)
        rw [hupd, ih]
        · simp [hfil]
        · intro e he k hk
          rcases List.mem_append.mp he with he' | he'
          · exact hdisj e he' k (by simp [hk])
          · simp at he'
            rw [he']
            simp only [List.map_cons, List.nodup_cons] at hnodup
            have : parentParts r.file_path ∉
                (rest.filter kustCond).map fun k => parentParts k.file_path :=
              hnodup.1
            have hne : ¬parentParts r.file_path = parentParts k.file_path := by
              intro hcontra
              exact this (hcontra ▸ List.mem_map_of_mem _ hk)
            simp [hne]
        · simp only [List.map_cons, List.nodup_cons] at hnodup
          exact hnodup.2
      · have hfil : (r :: rest).filter kustCond = rest.filter kustCond := by
          simp [List.filter_cons, hc]
        rw [hfil] at hnodup hdisj
        rw [if_neg hc, hfil]
        exact ih m hdisj hnodup

/-- Claim C7, amended.  Part 1: after a real scan no namespace
inheritance happens at all — parsed Kustomizations carry empty `data`,
so post-processing leaves every resource's namespace unchanged.
Part 2: over hand-populated Kustomization data (as in the unit tests),
a namespace-less resource inherits the `targetNamespace` of the *first*
enclosing Kustomization in list order — not the nearest/deepest —
assuming pairwise-distinct Kustomization directories. -/
theorem C7_namespace_inheritance :
    (∀ files, (scanDirectory files).map ResourceData.namespace
        = (scanCollect files).map ResourceData.namespace)
      ∧ (∀ (xs ys : List ResourceData) (k1 r : ResourceData),
        kustCond k1 = true →
        (parentParts k1.file_path).isPrefixOf (pathParts r.file_path) = true →
        (∀ k' ∈ xs, kustCond k' = true →
          (parentParts k'.file_path).isPrefixOf (pathParts r.file_path) = false) →
        (((xs ++ k1 :: ys).filter kustCond).map
            (fun k => parentParts k.file_path)).Nodup →
        r.namespace = none →
        (postStep (pathNsMap (xs ++ k1 :: ys)) (ociVersions (xs ++ k1 :: ys))
            r).namespace
          = getStr k1.data "targetNamespace") := by
  constructor
  · intro files
    unfold scanDirectory
    by_cases he : (scanCollect files).isEmpty
    · simp [he]
    · simp only [he, Bool.false_eq_true, if_false]
      unfold postProcess
      have hmap : pathNsMap (scanCollect files) = [] :=
        pathNsMap_fold_skip _ [] fun r hr => scanCollect_kustCond files r hr
      rw [hmap, List.map_map]
      refine List.map_congr_left fun r hr => ?_
      show (postStep [] (ociVersions (scanCollect files)) r).namespace = r.namespace
      unfold postStep
      rw [propagateVersion_namespace, inheritNamespace_nil]
  · intro xs ys k1 r hk1 hpre hxs hnodup hns
    unfold postStep
    rw [propagateVersion_namespace]
    have hmap : pathNsMap (xs ++ k1 :: ys) =
        ((xs ++ k1 :: ys).filter kustCond).map
          (fun k => (parentParts k.file_path, getStr k.data "targetNamespace")) := by
      unfold pathNsMap
      have := pathNsMap_fold_eq (xs ++ k1 :: ys) [] (by simp) hnodup
      simpa using this
    unfold inheritNamespace
    rw [hns]
    simp only [Option.isNone_none, if_true, if_pos]
    rw [hmap, List.filter_append, List.filter_cons, if_pos hk1, List.map_append,
      List.map_cons, List.find?_append]
    have hnone : (((xs.filter kustCond).map
        (fun k => (parentParts k.file_path, getStr k.data "targetNamespace"))).find?
          fun e => e.1.isPrefixOf (pathParts r.file_path)) = none := by
      rw [List.find?_eq_none]
      intro e he
      obtain ⟨k', hk', rfl⟩ := List.mem_map.mp he
      have hk'' := List.mem_filter.mp hk'
      simp [hxs k' hk''.1 hk''.2]
    rw [hnone]
    simp [List.find?_cons, hpre]

/-- A shallow Kustomization (with populated data) appearing first in
scan order. -/
def c7shallow : ResourceData where
  api_version := "kustomize.toolkit.fluxcd.io/v1"
  kind := "Kustomization"
  file_path := "apps/ks.yaml"
  file_hash := "h1"
  name := some "apps"
  data := [("targetNamespace", .str "shallow")]

/-- A deeper Kustomization (with populated data) appearing later. -/
def c7deep : ResourceData where
  api_version := "kustomize.toolkit.fluxcd.io/v1"
  kind := "Kustomization"
  file_path := "apps/web/ks.yaml"
  file_hash := "h2"
  name := some "web"
  data := [("targetNamespace", .str "deep")]

/-- A namespace-less resource under both directories. -/
def c7res : ResourceData where
  api_version := "helm.toolkit.fluxcd.io/v2"
  kind := "HelmRelease"
  file_path := "apps/web/app.yaml"
  file_hash := "h3"
  name := some "app"

/-- Witness for the amended claim C7: a real scan leaves namespaces
untouched, and with hand-populated data the *shallow* first Kustomization
wins over the deeper one. -/
theorem C7_namespace_inheritance_witness :
    (scanDirectory c7files).map ResourceData.namespace
        = (scanCollect c7files).map ResourceData.namespace
      ∧ (postStep (pathNsMap [c7shallow, c7deep])
          (ociVersions [c7shallow, c7deep]) c7res).namespace = some "shallow" := by
  constructor
  · exact C7_namespace_inheritance.1 c7files
  · have h := C7_namespace_inheritance.2 [] [c7deep] c7shallow c7res
      (by decide) (by decide) (by intro k' hk'; simp at hk') (by decide) rfl
    simpa using h

/-! ## Claim C8 — MODIFIED detection and the field-level diff -/

/-- Key membership agrees with membership among the mapped keys. -/
theorem hasKey_iff_mem (k : String) (d : Doc) :
    hasKey k d = true ↔ k ∈ d.map Prod.fst := by
  unfold hasKey
  rw [List.any_eq_true]
  constructor
  · rintro ⟨e, he, heq⟩
    exact List.mem_map.mpr ⟨e, he, (beq_iff_eq.mp heq)⟩
  · intro h
    obtain ⟨e, he, rfl⟩ := List.mem_map.mp h
    exact ⟨e, he, beq_iff_eq.mpr rfl⟩

/-- A present key looks up to some value. -/
theorem lookupEntry_isSome_of_hasKey (k : String) (d : Doc)
    (h : hasKey k d = true) : (lookupEntry k d).isSome = true := by
  induction d with
  | nil => simp [hasKey] at h
  | cons e rest ih =>
      rw [lookupEntry]
      by_cases he : e.1 == k
      · simp [he]
      · simp only [he, Bool.false_eq_true, if_false]
        apply ih
        unfold hasKey at h ⊢
        simp only [List.any_cons, he, Bool.false_or] at h
        exact h

/-- A successful lookup witnesses key membership. -/
theorem hasKey_of_lookupEntry (k : String) (d : Doc) (v : Value)
    (h : lookupEntry k d = some v) : hasKey k d = true := by
  induction d with
  | nil => simp [lookupEntry] at h
  | cons e rest ih =>
      rw [lookupEntry] at h
      unfold hasKey
      by_cases he : e.1 == k
      · simp [he]
      · simp only [he, Bool.false_eq_true, if_false] at h
        simp only [List.any_cons, he, Bool.false_or]
        exact ih h

/-- The iterated key set of `set(old) | set(new)`, membership view. -/
theorem mem_allKeys_iff (k : String) (old new : Doc) :
    k ∈ allKeys old new ↔ (hasKey k old = true ∨ hasKey k new = true) := by
  unfold allKeys
  rw [List.mem_append, hasKey_iff_mem, hasKey_iff_mem, List.mem_filter]
  constructor
  · rintro (h | ⟨h, _⟩)
    · exact Or.inl h
    · exact Or.inr h
  · rintro (h | h)
    · exact Or.inl h
    · by_cases ho : k ∈ old.map Prod.fst
      · exact Or.inl ho
      · refine Or.inr ⟨h, ?_⟩
        cases hko : hasKey k old with
        | false => simp
        | true => exact absurd ((hasKey_iff_mem k old).mp hko) ho

/-- Modelled from the spec (claim C8): the structurally-changed paths of
two body maps — a key present in only one side is `path (added)` /
`path (removed)`; a key whose values differ contributes `path`, with the
comparison recursing into nested maps. -/
inductive DiffPath : Doc → Doc → String → String → Prop where
  | added (old new : Doc) (path k : String) :
      hasKey k old = false → hasKey k new = true →
      DiffPath old new path (path ++ "." ++ k ++ " (added)")
  | removed (old new : Doc) (path k : String) :
      hasKey k old = true → hasKey k new = false →
      DiffPath old new path (path ++ "." ++ k ++ " (removed)")
  | changed (old new : Doc) (path k : String) (v w : Value) :
      lookupEntry k old = some v → lookupEntry k new = some w →
      Value.pyEq v w = false → bothDicts v w = false →
      DiffPath old new path (path ++ "." ++ k)
  | nested (old new : Doc) (path k p : String) (a b : List (String × Value)) :
      lookupEntry k old = some (.dict a) → lookupEntry k new = some (.dict b) →
      Value.pyEq (.dict a) (.dict b) = false →
      DiffPath a b (path ++ "." ++ k) p →
      DiffPath old new path p

/-- The computed diff paths are exactly those of the specification
relation. -/
theorem mem_compareNested_iff (old new : Doc) (path p : String) :
    p ∈ compareNested old new path ↔ DiffPath old new path p := by
  have H : ∀ n (old : Doc), sizeOf old ≤ n → ∀ (new : Doc) (path p : String),
      (p ∈ compareNested old new path ↔ DiffPath old new path p) := by
    intro n
    induction n with
    | zero =>
        intro old h
        have hpos : 0 < sizeOf old := by
          cases old <;> simp_arith
        omega
    | succ n ih =>
        intro old hle new path p
        rw [compareNested, List.mem_flatMap]
        constructor
        · rintro ⟨k, hk, hpk⟩
          split at hpk
          · rename_i h1
            simp only [List.mem_singleton] at hpk
            subst hpk
            have hk2 : hasKey k new = true := by
              rcases (mem_allKeys_iff k old new).mp hk with h | h
              · exact absurd h (by simp [h1])
              · exact h
            exact DiffPath.added old new path k h1 hk2
          · rename_i h1
            have h1x : hasKey k old = true := by
              cases h : hasKey k old
              · exact absurd h h1
              · rfl
            split at hpk
            · rename_i h2
              simp only [List.mem_singleton] at hpk
              subst hpk
              exact DiffPath.removed old new path k h1x h2
            · rename_i h2
              have h2x : hasKey k new = true := by
                cases h : hasKey k new
                · exact absurd h h2
                · rfl
              split at hpk
              · rename_i x v w hv hw
                split at hpk
                · simp at hpk
                · rename_i hpe
                  have hpex : Value.pyEq v w = false := by
                    cases h : Value.pyEq v w
                    · rfl
                    · exact absurd h hpe
                  split at hpk
                  · rename_i a b h3x
                    have ha : sizeOf a ≤ n := by
                      have := sizeOf_lookupEntry hv
                      simp at this
                      omega
                    exact DiffPath.nested old new path k p a b hv hw hpex
                      ((ih a ha b (path ++ "." ++ k) p).mp hpk)
                  · rename_i v2 w2 w3 h3x hno
                    have hnd : bothDicts v2 w2 = false := by
                      cases v2 <;> cases w2 <;> try rfl
                      exfalso
                      rename_i a b
                      exact hno a b hv rfl rfl HEq.rfl
                    simp only [List.mem_singleton] at hpk
                    subst hpk
                    exact DiffPath.changed old new path k v2 w2 hv hw hpex hnd
              · simp at hpk
        · intro hd
          cases hd with
          | added _ _ _ k h1 h2 =>
              refine ⟨k, (mem_allKeys_iff k old new).mpr (Or.inr h2), ?_⟩
              rw [if_pos h1]
              simp
          | removed _ _ _ k h1 h2 =>
              refine ⟨k, (mem_allKeys_iff k old new).mpr (Or.inl h1), ?_⟩
              rw [if_neg (by simp [h1]), if_pos h2]
              simp
          | changed _ _ _ k v w hv hw hpe hnd =>
              refine ⟨k, (mem_allKeys_iff k old new).mpr
                (Or.inl (hasKey_of_lookupEntry k old v hv)), ?_⟩
              rw [if_neg (by simp [hasKey_of_lookupEntry k old v hv]),
                if_neg (by simp [hasKey_of_lookupEntry k new w hw])]
              split
              · rename_i x v2 w2 hv2 hw2
                have hve : v2 = v := Option.some.inj (hv2.symm.trans hv)
                have hwe : w2 = w := Option.some.inj (hw2.symm.trans hw)
                subst hve
                subst hwe
                rw [if_neg (by simp [hpe])]
                split
                · rename_i a b h3x
                  simp [bothDicts] at hnd
                · simp
              · exfalso
                rename_i x2 hno
                exact hno v w hv hw
          | nested _ _ _ k p' a b hv hw hpe hrec =>
              refine ⟨k, (mem_allKeys_iff k old new).mpr
                (Or.inl (hasKey_of_lookupEntry k old _ hv)), ?_⟩
              rw [if_neg (by simp [hasKey_of_lookupEntry k old _ hv]),
                if_neg (by simp [hasKey_of_lookupEntry k new _ hw])]
              split
              · rename_i x v2 w2 hv2 hw2
                have hve : v2 = Value.dict a := Option.some.inj (hv2.symm.trans hv)
                have hwe : w2 = Value.dict b := Option.some.inj (hw2.symm.trans hw)
                subst hve
                subst hwe
                rw [if_neg (by simp [hpe])]
                have ha : sizeOf a ≤ n := by
                  have := sizeOf_lookupEntry hv
                  simp at this
                  omega
                exact (ih a ha b (path ++ "." ++ k) p).mpr hrec
              · exfalso
                rename_i x2 hno
                exact hno _ _ hv hw
  exact H (sizeOf old) old (Nat.le_refl _) new path p

/-- Claim C8: a scanned resource whose identity key is active produces a
MODIFIED change exactly when the file hashes differ (with the existing
hash as "before", and no change at all when they agree) — in
`compare_resources` and in `ChangeDetector.detect_changes`, where the
MODIFIED change carries the recursive spec diff — and the diff paths are
exactly those of the specification's recursive comparison. -/
theorem C8_modified_detection :
    (∀ existing db repo rd ex,
        lookupAssoc rd.resource_key existing = some ex →
        (ex.file_hash ≠ rd.file_hash →
            scanChange existing db repo rd =
              some { type := "MODIFIED", resource_data := some rd,
                     existing_resource := some ex,
                     file_hash_before := some ex.file_hash,
                     file_hash_after := some rd.file_hash })
          ∧ (ex.file_hash = rd.file_hash → scanChange existing db repo rd = none))
      ∧ (∀ existing scanned db repo c,
        c ∈ (compareResources existing scanned db repo).modified →
        c.type = "MODIFIED" →
        ∃ rd ex, rd ∈ scanned ∧ lookupAssoc rd.resource_key existing = some ex
          ∧ ex.file_hash ≠ rd.file_hash
          ∧ c.file_hash_before = some ex.file_hash
          ∧ c.file_hash_after = some rd.file_hash)
      ∧ (∀ current filesystem e ex,
        e ∈ filesystem → lookupAssoc e.1 current = some ex →
        ex.file_hash ≠ e.2.file_hash →
        ({ type := "MODIFIED", resource_data := some e.2,
           existing_resource := some ex,
           file_hash_before := some ex.file_hash,
           file_hash_after := some e.2.file_hash,
           detailed_changes := some (analyzeDetailedChanges ex.spec e.2.spec) }
            : LegacyResourceChange)
          ∈ (detectChanges current filesystem).modified)
      ∧ (∀ old new p, p ∈ analyzeDetailedChanges old new ↔ DiffPath old new "spec" p) := by
  refine ⟨?_, ?_, ?_, ?_⟩
  · intro existing db repo rd ex h
    unfold scanChange
    rw [h]
    dsimp only
    constructor
    · intro hne
      rw [if_pos (by simp [bne_iff_ne, hne])]
    · intro heq
      rw [if_neg (by simp [bne_iff_ne, heq])]
  · intro existing scanned db repo c hc htype
    unfold compareResources at hc
    simp only [List.mem_filter] at hc
    obtain ⟨hmem, _⟩ := hc
    obtain ⟨rd, hrd, hsc⟩ := List.mem_filterMap.mp hmem
    unfold scanChange at hsc
    cases hl : lookupAssoc rd.resource_key existing with
    | some ex =>
        rw [hl] at hsc
        dsimp only at hsc
        by_cases hne : ex.file_hash != rd.file_hash
        · rw [if_pos hne] at hsc
          have hc' := Option.some.inj hsc
          refine ⟨rd, ex, hrd, hl, by simpa [bne_iff_ne] using hne, ?_, ?_⟩ <;>
            rw [← hc']
        · rw [if_neg hne] at hsc
          exact Option.noConfusion hsc
    | none =>
        rw [hl] at hsc
        dsimp only at hsc
        cases hd : getDeletedResource db repo rd with
        | some d =>
            rw [hd] at hsc
            dsimp only at hsc
            have hc' := Option.some.inj hsc
            rw [← hc'] at htype
            simp at htype
        | none =>
            rw [hd] at hsc
            dsimp only at hsc
            have hc' := Option.some.inj hsc
            rw [← hc'] at htype
            simp at htype
  · intro current filesystem e ex he hl hne
    unfold detectChanges
    simp only
    refine List.mem_filterMap.mpr ⟨e, he, ?_⟩
    rw [hl]
    dsimp only
    rw [if_pos (by simp [bne_iff_ne, hne])]
  · intro old new p
    exact mem_compareNested_iff old new "spec" p

/-- The active row of the C8 witness. -/
def c8row : KubernetesResourceRow where
  id := 3
  repository_id := 0
  api_version := "v1"
  kind := "Pod"
  name := some "a"
  «namespace» := none
  file_path := "f.yaml"
  file_hash := "hOld"
  version := none
  data := []
  status := "ACTIVE"
  deleted_at := none
  created_at := 0
  updated_at := 0

/-- The rescanned resource of the C8 witness (changed content). -/
def c8rd : ResourceData where
  api_version := "v1"
  kind := "Pod"
  file_path := "f.yaml"
  file_hash := "hNew"
  name := some "a"

/-- Witness for claim C8: a concrete changed resource yields the MODIFIED
change, and a concrete spec edit realises the specification diff
relation. -/
theorem C8_modified_detection_witness :
    scanChange [(ResourceData.resource_key c8rd, c8row)] {} 0 c8rd =
        some { type := "MODIFIED", resource_data := some c8rd,
               existing_resource := some c8row,
               file_hash_before := some "hOld",
               file_hash_after := some "hNew" }
      ∧ DiffPath [("replicas", .int 1)] [("replicas", .int 2)] "spec"
          "spec.replicas" := by
  constructor
  · exact (C8_modified_detection.1 [(ResourceData.resource_key c8rd, c8row)] {} 0
      c8rd c8row rfl |>.1) (by decide)
  · refine (C8_modified_detection.2.2.2 [("replicas", .int 1)]
      [("replicas", .int 2)] "spec.replicas").mp ?_
    unfold analyzeDetailedChanges
    rw [compareNested]
    decide

end Kubestats
